import Mathlib

/-!
Verification of the Hipflat/ScrapingBee scraper (`hipflat_scrapingbee.py`).

The Python program is embedded shallowly:

* DOM documents are abstracted to the data the program's fixed CSS selectors
  can return (per selector: the text of the first matching element, or the
  structured items of a matched section).  The program never inspects any
  other part of a page.
* Every regular expression of the source is implemented as an executable
  scanner over `List Char` with Python `re.search` semantics (leftmost
  match, greedy repetition); `group(0)` / `group(1)` values are
  reconstructed from the consumed characters.
* Network fetches (`make_scrapingbee_request`) are an oracle
  `String → Option Doc`; `none` models a failed fetch (non-200 status,
  timeout, transport error).
* `time.sleep(random.uniform(a, b))` and each fetch are recorded in an
  event trace (`Ev.wait a b`, `Ev.fetch url`); the random draw itself is
  irrelevant to the claims, only the placement and bounds of the waits.
* A Python exception raised while one label/value item of the detail page
  is processed (caught by the per-item `try/except`) is modelled by the
  item value `Raisable.raised`.
* Python `str.isdigit`/`int` are modelled on ASCII decimal digits,
  `str.strip`, `str.lower` and `str.startswith` by the reducible
  `String.pyStrip` / `String.pyLower` / `String.pyStartsWith` below.
-/

/-! ### Character and string utilities -/

/-- Whitespace class of Python's `\s` (ASCII part). -/
def isPyWS (c : Char) : Bool :=
  c = ' ' || c = '\t' || c = '\n' || c = '\x0d' || c = '\x0b' || c = '\x0c'

/-- Maximal (possibly empty) prefix run of characters satisfying `p`,
together with the remainder. -/
def takeRun (p : Char → Bool) : List Char → List Char × List Char
  | [] => ([], [])
  | c :: cs =>
    if p c then
      let r := takeRun p cs
      (c :: r.1, r.2)
    else ([], c :: cs)

/-- Maximal prefix run of characters satisfying `p`, required nonempty
(the `+` of a regex). -/
def takeRun1 (p : Char → Bool) (l : List Char) : Option (List Char × List Char) :=
  match takeRun p l with
  | ([], _) => none
  | (r, rest) => some (r, rest)

/-- Expect the literal `lit` at the head of `s`; return the remainder. -/
def dropLit : List Char → List Char → Option (List Char)
  | [], s => some s
  | _ :: _, [] => none
  | c :: cs, d :: ds => if c = d then dropLit cs ds else none

/-- Case-insensitive literal at the head of `s`; returns the consumed
original characters (for `group(0)` reconstruction) and the remainder. -/
def dropLitCI : List Char → List Char → Option (List Char × List Char)
  | [], s => some ([], s)
  | _ :: _, [] => none
  | c :: cs, d :: ds =>
    if c.toLower = d.toLower then
      (dropLitCI cs ds).map (fun pr => (d :: pr.1, pr.2))
    else none

/-- First alternative of `alts` matching at the head of `s`, tried in
order (regex alternation); `ci` selects case-insensitive matching. -/
def altLit (ci : Bool) : List (List Char) → List Char → Option (List Char × List Char)
  | [], _ => none
  | a :: rest, s =>
    match (if ci then dropLitCI a s else (dropLit a s).map (fun r => (a, r))) with
    | some pr => some pr
    | none => altLit ci rest s

/-- Leftmost-match driver of Python's `re.search`: try `f` at every
position of the string, left to right. -/
def scanFirst {α : Type} (f : List Char → Option α) : List Char → Option α
  | [] => f []
  | c :: cs =>
    match f (c :: cs) with
    | some a => some a
    | none => scanFirst f cs

/-- Split at the first `':'` (Python `str.split(':', 1)` after an
`':' in s` check); `none` when there is no colon. -/
def splitFirstColon : List Char → Option (List Char × List Char)
  | [] => none
  | c :: cs =>
    if c = ':' then some ([], cs)
    else (splitFirstColon cs).map (fun pr => (c :: pr.1, pr.2))

/-- Result of `re.search(r'/([^/]+)$', url)`: a `'/'` followed by a
nonempty run of non-`'/'` characters reaching the end of the string.  A
URL ending in `'/'` therefore has no match (the final `'/'` cannot be part
of the `[^/]+` segment), and the caller keeps its sentinel. -/
def afterLastSlash : List Char → Option (List Char)
  | [] => none
  | c :: rest =>
    match afterLastSlash rest with
    | some s => some s
    | none =>
      if c = '/' && rest ≠ [] && !rest.contains '/' then some rest else none

/-- Does `cand` start with `pre`? -/
def charsStartWith : List Char → List Char → Bool
  | [], _ => true
  | _ :: _, [] => false
  | c :: cs, d :: ds => c = d && charsStartWith cs ds

/-- Does the list contain `needle` as a contiguous sublist?  Models the
Python substring test `needle in hay`. -/
def charsContain (needle : List Char) : List Char → Bool
  | [] => charsStartWith needle []
  | d :: ds => charsStartWith needle (d :: ds) || charsContain needle ds

/-- Python `needle in hay` on strings. -/
def strContains (hay needle : String) : Bool :=
  charsContain needle.toList hay.toList

/-- Python `s.strip()` (ASCII-whitespace model): drop leading and trailing
whitespace. -/
def String.pyStrip (s : String) : String :=
  String.mk (((takeRun isPyWS ((takeRun isPyWS s.toList).2).reverse).2).reverse)

/-- Python `s.lower()` (ASCII model). -/
def String.pyLower (s : String) : String :=
  String.mk (s.toList.map Char.toLower)

/-- Python `s.startswith(pre)`. -/
def String.pyStartsWith (s pre : String) : Bool :=
  charsStartWith pre.toList s.toList

/-- Python `s.isdigit()` (ASCII model): nonempty and all decimal digits. -/
def isDigitStr (s : String) : Bool :=
  !s.toList.isEmpty && s.toList.all Char.isDigit

/-- Decimal value of a digit string (Python `int`). -/
def parseNatChars (l : List Char) : Nat :=
  l.foldl (fun n c => n * 10 + (c.toNat - '0'.toNat)) 0

/-- Decimal value of a digit `String`. -/
def parseNatStr (s : String) : Nat := parseNatChars s.toList

/-! ### Regex scanners used by the scraper -/

/-- Match of `page=(\d+)` at the current position. -/
def pageEqAt (s : List Char) : Option Nat :=
  (dropLit "page=".toList s).bind fun r =>
    (takeRun1 Char.isDigit r).map (fun pr => parseNatChars pr.1)

/-- Python `re.search(r'page=(\d+)', href)` returning `int(group(1))`. -/
def searchPageEq (s : String) : Option Nat :=
  scanFirst pageEqAt s.toList

/-- Attempt of the optional fractional group `(?:\.\d+)?` after the digit
run `d`: consumed `group(1)` so far, and the remainder. -/
def sizeFracPart (d r1 : List Char) : List Char × List Char :=
  match r1 with
  | c :: r1b =>
    if c = '.' then
      match takeRun1 Char.isDigit r1b with
      | some pr => (d ++ '.' :: pr.1, pr.2)
      | none => (d, r1)
    else (d, r1)
  | [] => (d, r1)

/-- Tail `\s*m²` of the size regex after the numeric group `g`. -/
def sizeTail (g : List Char × List Char) : Option (List Char × List Char) :=
  match dropLit "m²".toList (takeRun isPyWS g.2).2 with
  | some _ => some (g.1, g.1 ++ (takeRun isPyWS g.2).1 ++ "m²".toList)
  | none => none

/-- Match of `(\d+(?:\.\d+)?)\s*m²` at the current position, returning
`(group(1), group(0))`. -/
def sizeAt (s : List Char) : Option (List Char × List Char) :=
  match takeRun1 Char.isDigit s with
  | none => none
  | some (d, r1) => sizeTail (sizeFracPart d r1)

/-- Python `re.search(r'(\d+(?:\.\d+)?)\s*m²', s)`. -/
def searchSize (s : String) : Option (List Char × List Char) :=
  scanFirst sizeAt s.toList

/-- Match of `LABEL[：:]\s*([^\<]+)` at the current position, returning
`group(1)` (the single give-back step of the regex engine when only
whitespace separates the colon from the next `<` is reproduced). -/
def labeledTextAt (lab : List Char) (s : List Char) : Option (List Char) :=
  (dropLit lab s).bind fun r1 =>
    match r1 with
    | c :: r2 =>
      if c = '：' || c = ':' then
        let w := takeRun isPyWS r2
        match takeRun1 (fun ch => ch ≠ '<') w.2 with
        | some (g, _) => some g
        | none => (w.1.getLast?).map (fun lc => [lc])
      else none
    | [] => none

/-- Match of `\d+` at the current position. -/
def digitsAt (s : List Char) : Option (List Char) :=
  (takeRun1 Char.isDigit s).map (fun pr => pr.1)

/-- Python `re.search(r'\d+', s)` returning `group(0)`. -/
def searchDigits (s : String) : Option (List Char) :=
  scanFirst digitsAt s.toList

/-- Match of `<span class="data">(\d+)</span>\s*<span class="text">階</span>`
at the current position, returning `group(1)`. -/
def floorPat1At (s : List Char) : Option (List Char) :=
  (dropLit "<span class=\"data\">".toList s).bind fun r1 =>
    (takeRun1 Char.isDigit r1).bind fun pr =>
      (dropLit "</span>".toList pr.2).bind fun r2 =>
        let w := takeRun isPyWS r2
        (dropLit "<span class=\"text\">階</span>".toList w.2).map (fun _ => pr.1)

/-- Match of `階数[：:]\s*(\d+)` at the current position. -/
def floorPat2At (s : List Char) : Option (List Char) :=
  (dropLit "階数".toList s).bind fun r1 =>
    match r1 with
    | c :: r2 =>
      if c = '：' || c = ':' then
        let w := takeRun isPyWS r2
        (takeRun1 Char.isDigit w.2).map (fun pr => pr.1)
      else none
    | [] => none

/-- Match of `(\d+)\s*階` at the current position. -/
def floorPat3At (s : List Char) : Option (List Char) :=
  (takeRun1 Char.isDigit s).bind fun pr =>
    let w := takeRun isPyWS pr.2
    (dropLit "階".toList w.2).map (fun _ => pr.1)

/-- Unit alternation `(year|年間|ヶ月|か月|カ月)` of the first two
contract patterns. -/
def contractUnits1 : List (List Char) :=
  ["year".toList, "年間".toList, "ヶ月".toList, "か月".toList, "カ月".toList]

/-- Unit alternation `(ヶ月|年間|か月|カ月)` of the last two contract
patterns. -/
def contractUnits2 : List (List Char) :=
  ["ヶ月".toList, "年間".toList, "か月".toList, "カ月".toList]

/-- Match of `(\d+)\s*(year|年間|ヶ月|か月|カ月)\s*contract` (IGNORECASE) at
the current position, returning `group(0)`. -/
def contract1At (s : List Char) : Option (List Char) :=
  (takeRun1 Char.isDigit s).bind fun d =>
    let w1 := takeRun isPyWS d.2
    (altLit true contractUnits1 w1.2).bind fun u =>
      let w2 := takeRun isPyWS u.2
      (dropLitCI "contract".toList w2.2).map fun c =>
        d.1 ++ w1.1 ++ u.1 ++ w2.1 ++ c.1

/-- Match of `contract\s*(\d+)\s*(year|年間|ヶ月|か月|カ月)` (IGNORECASE) at
the current position, returning `group(0)`. -/
def contract2At (s : List Char) : Option (List Char) :=
  (dropLitCI "contract".toList s).bind fun c =>
    let w1 := takeRun isPyWS c.2
    (takeRun1 Char.isDigit w1.2).bind fun d =>
      let w2 := takeRun isPyWS d.2
      (altLit true contractUnits1 w2.2).map fun u =>
        c.1 ++ w1.1 ++ d.1 ++ w2.1 ++ u.1

/-- Match of `LABEL\s*(\d+)\s*(ヶ月|年間|か月|カ月)` at the current
position, returning `group(0)` (used with the labels `最低契約期間` and
`契約期間`). -/
def contractLabeledAt (lab : List Char) (s : List Char) : Option (List Char) :=
  (dropLit lab s).bind fun r =>
    let w1 := takeRun isPyWS r
    (takeRun1 Char.isDigit w1.2).bind fun d =>
      let w2 := takeRun isPyWS d.2
      (altLit true contractUnits2 w2.2).map fun u =>
        lab ++ w1.1 ++ d.1 ++ w2.1 ++ u.1

/-- The four contract-duration patterns of the detail parser, tried in
source order over the description; first pattern with a match wins and
its `group(0)` is kept. -/
def searchContractPatterns (descr : String) : Option (List Char) :=
  match scanFirst contract1At descr.toList with
  | some m => some m
  | none =>
    match scanFirst contract2At descr.toList with
    | some m => some m
    | none =>
      match scanFirst (contractLabeledAt "最低契約期間".toList) descr.toList with
      | some m => some m
      | none => scanFirst (contractLabeledAt "契約期間".toList) descr.toList

/-- Match of `Line[:\s]*([^\s,]+)` (IGNORECASE) at the current position,
returning `group(1)`; the backtracking of `[:\s]*` into the capture
(possible only when a `':'` of the separator run is the last candidate
character) is reproduced. -/
def linePatAt (s : List Char) : Option (List Char) :=
  (dropLitCI "Line".toList s).bind fun c =>
    let w := takeRun (fun ch => ch = ':' || isPyWS ch) c.2
    match takeRun1 (fun ch => !isPyWS ch && ch ≠ ',') w.2 with
    | some (g, _) => some g
    | none => if w.1.contains ':' then some [':'] else none

/-- The three listing-date regex fallbacks of the detail parser, tried in
source order over the raw page markup; `group(1)` is kept and stripped by
the caller. -/
def searchDatePatterns (html : String) : Option (List Char) :=
  match scanFirst (labeledTextAt "リストアップされた日付".toList) html.toList with
  | some m => some m
  | none =>
    match scanFirst (labeledTextAt "掲載日".toList) html.toList with
    | some m => some m
    | none => scanFirst (labeledTextAt "掲載".toList) html.toList

/-- The three floor regex fallbacks of the detail parser, tried in source
order over the raw page markup. -/
def searchFloorPatterns (html : String) : Option (List Char) :=
  match scanFirst floorPat1At html.toList with
  | some m => some m
  | none =>
    match scanFirst floorPat2At html.toList with
    | some m => some m
    | none => scanFirst floorPat3At html.toList

/-! ### Data model -/

/-- One `li.page` pagination item: its optional `data-value` attribute and
its text content. -/
structure PageItem where
  dataValue : Option String
  text : String
deriving DecidableEq

/-- One listing card (`.snippet`), abstracted to what the card extractor's
fixed selectors can see: the first `<a>`'s `href`, the texts of the
`.snippet-title` / `.snippet-price` / `.snippet-address` /
`.snippet-description` elements (absent element = `none`), the text of the
first match of each of the three size selectors, and the card's raw
markup `str(card)`. -/
structure Card where
  linkHref : Option String
  titleText : Option String
  priceText : Option String
  addressText : Option String
  descrText : Option String
  sizeSel1 : Option String
  sizeSel2 : Option String
  sizeSel3 : Option String
  rawHtml : String
deriving DecidableEq

/-- A fetched listing page: the `li.page` items of the first `.pagination`
block (`none` when there is no `.pagination`), the `href` of the first
`a[data-page="last"]` element (outer `none`: no such element; inner
`none`: element without `href`), and the `.snippet` cards. -/
structure ListingDoc where
  pageItems : Option (List PageItem)
  lastPageHref : Option (Option String)
  cards : List Card
deriving DecidableEq

/-- Basic record produced by the listing parser (the `property_data` dict
of `extract_property_data_from_card`). -/
structure BasicInfo where
  title : String
  price : String
  address : String
  description : String
  size : String
  url : String
deriving DecidableEq

/-- One iteration of the detail-section item loop: either the item's data,
or the marker that processing this item raises a Python exception (which
the per-item `try/except` catches). -/
inductive Raisable (α : Type) where
  | val (a : α)
  | raised
deriving DecidableEq

/-- A fetched detail page, abstracted to the results of the fixed
selectors of `extract_detail_data`, in source order: the three property-id
selectors, the three listing-date selectors, the five floor selectors, the
four detail-section selectors (the first two yield items with separate
label/value sub-elements, the last two yield plain item texts), the four
description selectors, the three amenity-section selectors (each a list of
amenity item texts), the three contact-section selectors, and the raw
markup `str(soup)`. -/
structure DetailDoc where
  idSel1 : Option String
  idSel2 : Option String
  idSel3 : Option String
  dateSel1 : Option String
  dateSel2 : Option String
  dateSel3 : Option String
  floorSel1 : Option String
  floorSel2 : Option String
  floorSel3 : Option String
  floorSel4 : Option String
  floorSel5 : Option String
  propertyFacts : Option (List (Raisable (Option String × Option String)))
  basicInfoList : Option (List (Raisable (Option String × Option String)))
  characteristics : Option (List (Raisable String))
  detailList : Option (List (Raisable String))
  descSel1 : Option String
  descSel2 : Option String
  descSel3 : Option String
  descSel4 : Option String
  amenitiesSec : Option (List String)
  featuresListSec : Option (List String)
  propertyFeaturesSec : Option (List String)
  contactSel1 : Option String
  contactSel2 : Option String
  contactSel3 : Option String
  rawHtml : String
deriving DecidableEq

/-- The enriched record (the `property_data` dict of
`extract_detail_data` / `get_property_details`).  Field mapping:
`name` = 物件名, `address` = 住所, `rent` = 1ヶ月賃料, `propertyId` = 物件ID,
`leaseMin` = 最低利用期間, `listedDate` = 建築日付 (overwritten with the
listing date), `furniture` = 家具, `size` = サイズ, `sauna` = サウナ,
`floorNum` = 階数, `wifi` = WiFi, `url` = 掲載URL, `lineContact` = Line,
`status` = ステータス. -/
structure PropertyDetail where
  name : String
  address : String
  rent : String
  propertyId : String
  leaseMin : String
  listedDate : String
  furniture : String
  size : String
  sauna : String
  floorNum : String
  wifi : String
  url : String
  lineContact : String
  status : String
deriving DecidableEq

/-- Trace event of a run: a randomized rate-limit wait with its uniform
bounds, or an outbound fetch of a URL. -/
inductive Ev where
  | wait (lo hi : Nat)
  | fetch (url : String)
deriving DecidableEq, Repr

/-! ### Listing side (`get_total_pages`, `extract_property_data_from_card`,
`get_property_links`) -/

/-- The fixed listing base URL (`self.base_url`). -/
def baseUrl : String := "https://www.hipflat.co.th/ja/apartment-for-rent/pattaya"

/-- Contribution of one pagination item to `page_numbers` in
`get_total_pages`: its `data-value` when that is a nonempty digit string,
otherwise its stripped text when that is a nonempty digit string,
otherwise nothing (the `if`/`elif` of the item loop). -/
def pageItemNumber (it : PageItem) : Option Nat :=
  match it.dataValue with
  | some dv =>
    if isDigitStr dv then some (parseNatStr dv)
    else if it.text ≠ "" && isDigitStr it.text.pyStrip then some (parseNatStr it.text.pyStrip)
    else none
  | none =>
    if it.text ≠ "" && isDigitStr it.text.pyStrip then some (parseNatStr it.text.pyStrip)
    else none

/-- Tier of `get_total_pages` that reads `a[data-page="last"]` and applies
`re.search(r'page=(\d+)', href)`, defaulting to 1. -/
def lastLinkTier (d : ListingDoc) : Nat :=
  match d.lastPageHref with
  | some (some href) =>
    match searchPageEq href with
    | some n => n
    | none => 1
  | _ => 1

/-- Embedding of `HipflatScraper.get_total_pages`; the argument is the
result of fetching `base_url` (`none` = failed fetch, giving 1). -/
def get_total_pages (fetched : Option ListingDoc) : Nat :=
  match fetched with
  | none => 1
  | some d =>
    match d.pageItems with
    | some items =>
      let page_numbers := items.filterMap pageItemNumber
      if page_numbers ≠ [] then page_numbers.foldl max 0
      else lastLinkTier d
    | none => lastLinkTier d

/-- Page-count resolution as the claim words it: first the maximum of the
numeric `data-value` attributes of the pagination items; only if there are
none, the maximum of the numeric text contents of the pagination items;
only then the `page=(\d+)` regex tier; else 1.  Stated for comparison with
`get_total_pages`, which mixes the first two tiers per item. -/
def get_total_pages_claimTiered (fetched : Option ListingDoc) : Nat :=
  match fetched with
  | none => 1
  | some d =>
    let items := d.pageItems.getD []
    let dvs := items.filterMap (fun it =>
      match it.dataValue with
      | some dv => if isDigitStr dv then some (parseNatStr dv) else none
      | none => none)
    if dvs ≠ [] then dvs.foldl max 0
    else
      let ts := items.filterMap (fun it =>
        if it.text ≠ "" && isDigitStr it.text.pyStrip then some (parseNatStr it.text.pyStrip) else none)
      if ts ≠ [] then ts.foldl max 0
      else lastLinkTier d

/-- The size-selector loop of the card extractor: for each selector with a
match, run the size regex on the stripped text; the loop breaks on the
first regex success (`size_found`), a selector match without a regex match
falls through to the next selector. -/
def sizeSelLoop : List (Option String) → Option String
  | [] => none
  | some t :: rest =>
    (match searchSize t.pyStrip with
     | some pr => some (String.mk pr.1 ++ " m²")
     | none => sizeSelLoop rest)
  | none :: rest => sizeSelLoop rest

/-- Embedding of `HipflatScraper.extract_property_data_from_card`. -/
def extract_property_data_from_card (card : Card) : BasicInfo :=
  let url :=
    match card.linkHref with
    | some h =>
      if h ≠ "" then (if h.pyStartsWith "http" then h else "https://www.hipflat.co.th" ++ h)
      else ""
    | none => ""
  let title := match card.titleText with | some t => t.pyStrip | none => "不明"
  let price := match card.priceText with | some t => t.pyStrip | none => "不明"
  let address := match card.addressText with | some t => t.pyStrip | none => "不明"
  let description := match card.descrText with | some t => t.pyStrip | none => ""
  let sizeFromSel :=
    sizeSelLoop [card.sizeSel1, card.sizeSel2, card.sizeSel3]
  let size :=
    match sizeFromSel with
    | some s => s
    | none =>
      match searchSize card.rawHtml with
      | some pr => String.mk pr.2
      | none => ""
  { title := title, price := price, address := address,
    description := description, size := size, url := url }

/-- Inner card loop of `get_property_links` on one fetched page: each card
is extracted and appended only when its `url` is nonempty. -/
def parseListingCards (cards : List Card) : List BasicInfo :=
  (cards.map extract_property_data_from_card).filter (fun pd => pd.url != "")

/-- URL of listing page `page_num` (page 1 is `base_url` itself). -/
def pageUrl (page_num : Int) : String :=
  if page_num = 1 then baseUrl else baseUrl ++ "?page=" ++ toString page_num

/-- Python `range(a, b + 1)` as a list of integers. -/
def intRangeIncl (a b : Int) : List Int :=
  (List.range (b + 1 - a).toNat).map (fun i => a + (i : Int))

/-- One iteration of the page loop of `get_property_links`: the optional
rate-limit wait (only when `page_num > start_page`), the page fetch, and —
on success — the card loop appending to the aggregate. -/
def linkStep (fetch : String → Option ListingDoc) (start_page : Int)
    (acc : List Ev × List BasicInfo) (page_num : Int) : List Ev × List BasicInfo :=
  let waitEvs : List Ev := if page_num > start_page then [Ev.wait 3 7] else []
  let purl := pageUrl page_num
  match fetch purl with
  | none => (acc.1 ++ waitEvs ++ [Ev.fetch purl], acc.2)
  | some doc => (acc.1 ++ waitEvs ++ [Ev.fetch purl], acc.2 ++ parseListingCards doc.cards)

/-- Embedding of `HipflatScraper.get_property_links`: the discovery fetch
of `get_total_pages`, then the page loop over `range(start_page,
end_page + 1)` with `end_page = min(total_pages, max_pages)`.  Returns the
event trace and the aggregated basic records. -/
def get_property_links (fetch : String → Option ListingDoc)
    (max_pages start_page : Int) : List Ev × List BasicInfo :=
  let total_pages := get_total_pages (fetch baseUrl)
  let end_page := min (Int.ofNat total_pages) max_pages
  (intRangeIncl start_page end_page).foldl (linkStep fetch start_page)
    ([Ev.fetch baseUrl], [])

/-- URLs of the fetch events of a trace, in order. -/
def fetchUrls (evs : List Ev) : List String :=
  evs.filterMap (fun e => match e with | Ev.fetch u => some u | Ev.wait _ _ => none)

/-! ### Detail parser (`extract_detail_data`) -/

/-- First selector with any match (the loops of the source that `break`
unconditionally on the first matching selector). -/
def firstSome : List (Option String) → Option String
  | [] => none
  | some t :: _ => some t
  | none :: rest => firstSome rest

/-- First selector whose stripped text is nonempty (the listing-date
selector loop, which only `break`s when the stripped text is truthy). -/
def firstNonEmptyTrim : List (Option String) → Option String
  | [] => none
  | some t :: rest => if t.pyStrip ≠ "" then some t.pyStrip else firstNonEmptyTrim rest
  | none :: rest => firstNonEmptyTrim rest

/-- The initial `property_data` dict of `extract_detail_data`, seeded from
the basic record. -/
def initDetailRecord (basic : BasicInfo) : PropertyDetail where
  name := basic.title
  address := basic.address
  rent := basic.price
  propertyId := "不明"
  leaseMin := ""
  listedDate := ""
  furniture := ""
  size := basic.size
  sauna := "なし"
  floorNum := ""
  wifi := "なし"
  url := basic.url
  lineContact := ""
  status := ""

/-- URL tier of the property-id step: the regex `/([^/]+)$` on the basic
record's URL. -/
def stepIdUrl (basic : BasicInfo) (pd : PropertyDetail) : PropertyDetail :=
  match afterLastSlash basic.url.toList with
  | some seg => { pd with propertyId := String.mk seg }
  | none => pd

/-- Selector tier of the property-id step: the first matching id selector
overrides with its stripped text (unconditionally, with an unconditional
`break`). -/
def stepIdSel (soup : DetailDoc) (pd : PropertyDetail) : PropertyDetail :=
  match firstSome [soup.idSel1, soup.idSel2, soup.idSel3] with
  | some t => { pd with propertyId := t.pyStrip }
  | none => pd

/-- Property-id step of `extract_detail_data`: the URL regex first, then
the selector override. -/
def stepId (soup : DetailDoc) (basic : BasicInfo) (pd : PropertyDetail) : PropertyDetail :=
  stepIdSel soup (stepIdUrl basic pd)

/-- Selector tier of the listing-date step: the three date selectors,
first nonempty stripped text wins. -/
def stepDateSel (soup : DetailDoc) (pd : PropertyDetail) : PropertyDetail :=
  match firstNonEmptyTrim [soup.dateSel1, soup.dateSel2, soup.dateSel3] with
  | some d => { pd with listedDate := d }
  | none => pd

/-- Raw-markup tier of the listing-date step: only when the field is still
empty, the three labelled-text regex fallbacks (the first matching pattern
wins and its stripped `group(1)` is assigned, even when that strip is
empty). -/
def stepDateRaw (soup : DetailDoc) (pd : PropertyDetail) : PropertyDetail :=
  if pd.listedDate = "" then
    match searchDatePatterns soup.rawHtml with
    | some g => { pd with listedDate := (String.mk g).pyStrip }
    | none => pd
  else pd

/-- Listing-date step of `extract_detail_data`. -/
def stepDate (soup : DetailDoc) (pd : PropertyDetail) : PropertyDetail :=
  stepDateRaw soup (stepDateSel soup pd)

/-- Result of the floor-selector loop: on the first selector with a match,
the first digit run of the stripped text, or the whole stripped text when
it has no digits (with an unconditional `break`). -/
def floorFromSelectors : List (Option String) → Option String
  | [] => none
  | some t :: _ =>
    some (match searchDigits t.pyStrip with
          | some g => String.mk g
          | none => t.pyStrip)
  | none :: rest => floorFromSelectors rest

/-- Selector tier of the floor step. -/
def stepFloorSel (soup : DetailDoc) (pd : PropertyDetail) : PropertyDetail :=
  match floorFromSelectors
      [soup.floorSel1, soup.floorSel2, soup.floorSel3, soup.floorSel4, soup.floorSel5] with
  | some f => { pd with floorNum := f }
  | none => pd

/-- Raw-markup tier of the floor step: only when the field is still
empty. -/
def stepFloorRaw (soup : DetailDoc) (pd : PropertyDetail) : PropertyDetail :=
  if pd.floorNum = "" then
    match searchFloorPatterns soup.rawHtml with
    | some g => { pd with floorNum := String.mk g }
    | none => pd
  else pd

/-- Floor step of `extract_detail_data`: the five floor selectors, then,
if the field is still empty, the three floor regex fallbacks over the raw
markup. -/
def stepFloor (soup : DetailDoc) (pd : PropertyDetail) : PropertyDetail :=
  stepFloorRaw soup (stepFloorSel soup pd)

/-- Label/value classification of one detail-section item (the
`if label and value` body): substring keyword match on the label routes
the value into the lease-term, furniture or size field. -/
def classifyLV (label value : String) (pd : PropertyDetail) : PropertyDetail :=
  if strContains label "最低" && (strContains label "利用" || strContains label "契約") then
    { pd with leaseMin := value }
  else if strContains label "家具" then
    { pd with furniture := if value ≠ "" then value else if strContains label "家具" then "あり" else "" }
  else if strContains label "サイズ" || strContains label "面積" || strContains label "エリア" then
    { pd with size := value }
  else pd

/-- Label/value of a `.fact-item` / `.basic-information__list__item`: both
sub-elements must be present (`if label_elem and value_elem`); their texts
are stripped. -/
def lvOfPair (p : Option String × Option String) : Option (String × String) :=
  match p with
  | (some l, some v) => some (l.pyStrip, v.pyStrip)
  | _ => none

/-- Label/value of a plain `li` / `.item` / `.detail-item`: the stripped
item text split at its first `':'`, both halves stripped. -/
def lvOfText (t : String) : Option (String × String) :=
  match splitFirstColon t.pyStrip.toList with
  | some (a, b) => some ((String.mk a).pyStrip, (String.mk b).pyStrip)
  | none => none

/-- One iteration of the detail-item loop: an item that raises is absorbed
by the per-item `try/except`; an item without both a truthy label and a
truthy value is skipped; otherwise the item is classified. -/
def processItem {α : Type} (getLV : α → Option (String × String))
    (pd : PropertyDetail) (it : Raisable α) : PropertyDetail :=
  match it with
  | Raisable.raised => pd
  | Raisable.val a =>
    match getLV a with
    | some (label, value) =>
      if label ≠ "" && value ≠ "" then classifyLV label value pd else pd
    | none => pd

/-- The detail-item loop over one matched details section. -/
def processItems {α : Type} (getLV : α → Option (String × String))
    (items : List (Raisable α)) (pd : PropertyDetail) : PropertyDetail :=
  items.foldl (processItem getLV) pd

/-- Details-section step: the four section selectors tried in source order
(`.property-facts`, `.basic-information__list`, `.characteristics`,
`.detail-list`); the first present section is processed and the loop
`break`s. -/
def stepDetails (soup : DetailDoc) (pd : PropertyDetail) : PropertyDetail :=
  match soup.propertyFacts with
  | some items => processItems lvOfPair items pd
  | none =>
    match soup.basicInfoList with
    | some items => processItems lvOfPair items pd
    | none =>
      match soup.characteristics with
      | some items => processItems lvOfText items pd
      | none =>
        match soup.detailList with
        | some items => processItems lvOfText items pd
        | none => pd

/-- Description used by the later steps: the first matching description
selector's stripped text, else the basic record's description. -/
def resolveDescr (soup : DetailDoc) (basic : BasicInfo) : String :=
  match firstSome [soup.descSel1, soup.descSel2, soup.descSel3, soup.descSel4] with
  | some t => t.pyStrip
  | none => basic.description

/-- The wifi keyword list of the source. -/
def wifiTerms : List String := ["wifi", "wi-fi", "インターネット", "ネット接続", "internet"]

/-- Furniture keyword heuristic over the description (only when the
furniture field is still empty). -/
def stepDescrFurn (description : String) (pd : PropertyDetail) : PropertyDetail :=
  if pd.furniture = "" &&
      (strContains description.pyLower "furnished" || strContains description "家具") then
    { pd with furniture := "あり" }
  else pd

/-- Contract-duration regexes over the description (only when the lease
field is still empty). -/
def stepDescrLease (description : String) (pd : PropertyDetail) : PropertyDetail :=
  if pd.leaseMin = "" then
    match searchContractPatterns description with
    | some m => { pd with leaseMin := String.mk m }
    | none => pd
  else pd

/-- Description-derived step of `extract_detail_data` (a no-op when the
description is empty). -/
def stepDescr (description : String) (pd : PropertyDetail) : PropertyDetail :=
  if description ≠ "" then stepDescrLease description (stepDescrFurn description pd)
  else pd

/-- Keyword scan over the amenity item texts of a matched amenities
section; both flags are (re)assigned from the scan. -/
def amenityScan (texts : List String) (pd : PropertyDetail) : PropertyDetail :=
  let has_sauna := texts.any (fun t =>
    let lt := t.pyStrip.pyLower
    strContains lt "sauna" || strContains lt "サウナ")
  let has_wifi := texts.any (fun t =>
    let lt := t.pyStrip.pyLower
    wifiTerms.any (fun term => strContains lt term))
  { pd with sauna := if has_sauna then "あり" else "なし",
            wifi := if has_wifi then "あり" else "なし" }

/-- Description fallback for the wifi flag (only an upgrade to あり). -/
def descrWifiFlag (description : String) (pd : PropertyDetail) : PropertyDetail :=
  if wifiTerms.any (fun term => strContains description.pyLower term) then
    { pd with wifi := "あり" }
  else pd

/-- Description fallback for the sauna flag (only an upgrade to あり). -/
def descrSaunaFlag (description : String) (pd : PropertyDetail) : PropertyDetail :=
  if strContains description.pyLower "sauna" || strContains description "サウナ" then
    { pd with sauna := "あり" }
  else pd

/-- Amenities step: the three amenity-section selectors in source order;
when none matches, the keyword fallback over the description (which only
upgrades the flags to あり). -/
def stepAmenities (soup : DetailDoc) (description : String) (pd : PropertyDetail) : PropertyDetail :=
  match soup.amenitiesSec with
  | some ts => amenityScan ts pd
  | none =>
    match soup.featuresListSec with
    | some ts => amenityScan ts pd
    | none =>
      match soup.propertyFeaturesSec with
      | some ts => amenityScan ts pd
      | none =>
        if description ≠ "" then
          descrSaunaFlag description (descrWifiFlag description pd)
        else pd

/-- Contact step: the first matching contact section's text is searched
with the Line regex; only a match assigns the field. -/
def stepContact (soup : DetailDoc) (pd : PropertyDetail) : PropertyDetail :=
  match firstSome [soup.contactSel1, soup.contactSel2, soup.contactSel3] with
  | some contact_text =>
    match scanFirst linePatAt contact_text.toList with
    | some g => { pd with lineContact := String.mk g }
    | none => pd
  | none => pd

/-- Embedding of `HipflatScraper.extract_detail_data`.  The modelled
exceptions (raising items) are all caught by the per-item handler, so the
top-level `except` branch (which would set status `"エラー"`) is
unreachable and the status is always `"詳細取得済"`. -/
def extract_detail_data (soup : DetailDoc) (basic : BasicInfo) : PropertyDetail :=
  let pd0 := initDetailRecord basic
  let pd1 := stepId soup basic pd0
  let pd2 := stepDate soup pd1
  let pd3 := stepFloor soup pd2
  let pd4 := stepDetails soup pd3
  let description := resolveDescr soup basic
  let pd5 := stepDescr description pd4
  let pd6 := stepAmenities soup description pd5
  let pd7 := stepContact soup pd6
  { pd7 with status := "詳細取得済" }

/-! ### Detail phase (`get_property_details`) -/

/-- The pre-populated carry-forward record of the detail phase (the
initialization loop of `get_property_details`): basic fields, the
URL-derived property id, and the cheap description heuristics for
furniture and wifi; status `"基本情報のみ"`. -/
def initPropertyData (basic : BasicInfo) : PropertyDetail where
  name := basic.title
  address := basic.address
  rent := basic.price
  propertyId :=
    match afterLastSlash basic.url.toList with
    | some seg => String.mk seg
    | none => "不明"
  leaseMin := ""
  listedDate := ""
  furniture :=
    if basic.description ≠ "" &&
        (strContains basic.description.pyLower "furnished" || strContains basic.description "家具") then
      "あり"
    else ""
  size := basic.size
  sauna := "なし"
  floorNum := ""
  wifi :=
    if basic.description ≠ "" &&
        wifiTerms.any (fun term => strContains basic.description.pyLower term) then
      "あり"
    else "なし"
  url := basic.url
  lineContact := ""
  status := "基本情報のみ"

/-- The `detail_limit` of `get_property_details`:
`min(max_details, len(property_list)) if max_details > 0 else 0`. -/
def detailLimit (property_list : List BasicInfo) (max_details : Int) : Nat :=
  if max_details > 0 then min max_details.toNat property_list.length else 0

/-- One iteration of the detail loop: a record without a URL is skipped
before the wait; otherwise the optional wait (only when `idx > 0`), the
fetch, and — on success — the in-place replacement of entry `idx` by the
detail parser's output. -/
def detailStep (fetch : String → Option DetailDoc)
    (acc : List Ev × List PropertyDetail) (p : Nat × BasicInfo) : List Ev × List PropertyDetail :=
  if p.2.url = "" then acc
  else
    let evs := acc.1 ++ (if p.1 > 0 then [Ev.wait 3 5] else []) ++ [Ev.fetch p.2.url]
    match fetch p.2.url with
    | none => (evs, acc.2)
    | some soup => (evs, acc.2.set p.1 (extract_detail_data soup p.2))

/-- Embedding of `HipflatScraper.get_property_details`: pre-populate every
record as a carry-forward, then run the detail loop over the enumerated
first `detail_limit` records.  Returns the event trace and the merged
records. -/
def get_property_details (fetch : String → Option DetailDoc)
    (property_list : List BasicInfo) (max_details : Int) : List Ev × List PropertyDetail :=
  let all_results := property_list.map initPropertyData
  ((property_list.take (detailLimit property_list max_details)).enum).foldl
    (detailStep fetch) ([], all_results)

/-- The record entry `i` of the detail phase resolves to when `i` is
within `detail_limit`: the detail parser's output on a successful fetch,
the untouched carry-forward otherwise. -/
def resolveRecord (fetch : String → Option DetailDoc) (b : BasicInfo) : PropertyDetail :=
  if b.url = "" then initPropertyData b
  else
    match fetch b.url with
    | none => initPropertyData b
    | some soup => extract_detail_data soup b

/-- Trace contribution of detail-loop iteration `idx`. -/
def detailEvents (idx : Nat) (b : BasicInfo) : List Ev :=
  if b.url = "" then [] else (if idx > 0 then [Ev.wait 3 5] else []) ++ [Ev.fetch b.url]

/-! ### Output formatter (`format_for_spreadsheet`)

The source builds `pd.DataFrame(property_details)` from a list of dicts and
formats that.  A source record is modelled as an association list
(key/value pairs, keys unique for an actual dict); the DataFrame's columns
are the union of all record keys in first-appearance order, and a cell of a
record lacking a key of another record is pandas `NaN`, modelled as
`none`.  An emitted cell is therefore an `Option String` (`none` = NaN). -/

/-- Source record: the key/value pairs of one Python dict. -/
abbrev SrcRecord := List (String × String)

/-- Columns of `pd.DataFrame(records)`: union of the records' keys in
first-appearance order. -/
def dfColumns (records : List SrcRecord) : List String :=
  records.foldl
    (fun cols r => r.foldl (fun cs kv => if cs.contains kv.1 then cs else cs ++ [kv.1]) cols)
    []

/-- Value of key `c` in record `r`, `none` when the key is absent. -/
def lookupKey (r : SrcRecord) (c : String) : Option String :=
  (r.find? (fun kv => kv.1 == c)).map (fun kv => kv.2)

/-- The 13 data columns of `required_columns`, in source order. -/
def requiredColumns : List String :=
  ["物件名", "住所", "1ヶ月賃料", "最低利用期間", "建築日付",
   "家具", "サイズ", "サウナ", "階数", "WiFi", "掲載URL", "Line", "ステータス"]

/-- Cell of the DataFrame for record `r` and column `c` after the
column-fill loop: a column absent from the whole frame was just filled
with `''`; a column present in the frame holds the record's value or NaN.
`cols` is `dfColumns` of the record set. -/
def srcCell (cols : List String) (r : SrcRecord) (c : String) : Option String :=
  if cols.contains c then lookupKey r c else some ""

/-- The presence-mark rendering of the two amenity flag columns:
`'◯' if x == 'あり' else ''` (NaN compares unequal and renders `''`). -/
def markCell (v : Option String) : String :=
  if v = some "あり" then "◯" else ""

/-- Embedding of `HipflatScraper.format_for_spreadsheet`: fill entirely
missing required columns with `''`, project onto the fixed column order,
prepend the 1-based `No` column, and render the WiFi/サウナ flags as
presence marks. -/
def format_for_spreadsheet (records : List SrcRecord) : List (List (Option String)) :=
  let cols := dfColumns records
  records.enum.map (fun p =>
    some (toString (p.1 + 1)) ::
      requiredColumns.map (fun c =>
        if c = "WiFi" || c = "サウナ" then some (markCell (srcCell cols p.2 c))
        else srcCell cols p.2 c))

/-! ### Forms used to state the claims -/

/-- Number shape of the size regex's `group(1)`: `\d+(\.\d+)?` and nothing
else. -/
def numChars (l : List Char) : Bool :=
  match takeRun1 Char.isDigit l with
  | none => false
  | some pr =>
    match pr.2 with
    | [] => true
    | c :: r2 =>
      if c = '.' then
        (match takeRun1 Char.isDigit r2 with
         | some pr2 => pr2.2.isEmpty
         | none => false)
      else false

/-- The size shape the claim asserts: a number, exactly one space, then
`m²`. -/
def claimedSizeForm (s : String) : Bool :=
  match s.toList.reverse with
  | '²' :: 'm' :: ' ' :: rest => numChars rest.reverse
  | _ => false

/-- The shape actually produced by the raw-markup fallback (`group(0)` of
the size regex): a number, an arbitrary — possibly empty — whitespace run,
then `m²`. -/
def rawSizeForm (s : String) : Bool :=
  match sizeAt s.toList with
  | some pr => pr.2 == s.toList
  | none => false

/-- Concatenation of the images of `f` over a list (used to state trace
shapes). -/
def catMap {α β : Type} (f : α → List β) : List α → List β
  | [] => []
  | x :: xs => f x ++ catMap f xs

/-! ### Helper lemmas -/

theorem catMap_nil {α β : Type} (f : α → List β) : catMap f [] = [] := rfl

theorem catMap_cons {α β : Type} (f : α → List β) (x : α) (xs : List α) :
    catMap f (x :: xs) = f x ++ catMap f xs := rfl

/-- A projection that every step of a fold leaves unchanged is unchanged
by the whole fold. -/
theorem foldl_proj {α β γ : Type} (f : β → α → β) (g : β → γ)
    (h : ∀ b a, g (f b a) = g b) : ∀ (l : List α) (b : β), g (l.foldl f b) = g b := by
  intro l
  induction l with
  | nil => intro b; rfl
  | cons a as ih => intro b; rw [List.foldl_cons, ih, h]

/-- Filtering after mapping is mapping after filtering on the composed
predicate. -/
theorem filter_map_comm {α β : Type} (f : α → β) (p : β → Bool) :
    ∀ l : List α, (l.map f).filter p = (l.filter (fun a => p (f a))).map f := by
  intro l
  induction l with
  | nil => rfl
  | cons a as ih =>
    by_cases h : p (f a) = true
    · simp [List.filter_cons, h, ih]
    · simp only [Bool.not_eq_true] at h
      simp [List.filter_cons, h, ih]

theorem get?_set_self {α : Type} : ∀ (l : List α) (n : Nat) (a : α),
    (l.set n a).get? n = if n < l.length then some a else none := by
  intro l
  induction l with
  | nil => intro n a; cases n <;> rfl
  | cons x xs ih =>
    intro n a
    cases n with
    | zero => simp [List.set]
    | succ m => simpa [List.set, Nat.succ_lt_succ_iff] using ih m a

theorem get?_set_ne {α : Type} : ∀ (l : List α) (n m : Nat) (a : α), n ≠ m →
    (l.set n a).get? m = l.get? m := by
  intro l
  induction l with
  | nil => intro n m a _; cases n <;> rfl
  | cons x xs ih =>
    intro n m a hnm
    cases n with
    | zero =>
      cases m with
      | zero => exact absurd rfl hnm
      | succ k => rfl
    | succ n' =>
      cases m with
      | zero => rfl
      | succ k => simpa [List.set] using ih n' k a (fun h => hnm (by rw [h]))

/-! ### Closed forms of the detail loop -/

/-- The value (if any) that detail-loop iteration with basic record `b`
writes into the result list. -/
def updVal (fetch : String → Option DetailDoc) (b : BasicInfo) : Option PropertyDetail :=
  if b.url = "" then none
  else
    match fetch b.url with
    | none => none
    | some soup => some (extract_detail_data soup b)

/-- Result-list effect of one detail-loop iteration. -/
def updOne (fetch : String → Option DetailDoc)
    (r : List PropertyDetail) (p : Nat × BasicInfo) : List PropertyDetail :=
  match updVal fetch p.2 with
  | none => r
  | some v => r.set p.1 v

theorem detailStep_eq (fetch : String → Option DetailDoc)
    (acc : List Ev × List PropertyDetail) (p : Nat × BasicInfo) :
    detailStep fetch acc p = (acc.1 ++ detailEvents p.1 p.2, updOne fetch acc.2 p) := by
  unfold detailStep detailEvents updOne updVal
  by_cases hu : p.2.url = ""
  · simp [hu]
  · simp only [hu, if_neg, ite_false]
    cases fetch p.2.url <;> simp

theorem detailFold_eq (fetch : String → Option DetailDoc) :
    ∀ (ps : List (Nat × BasicInfo)) (acc : List Ev × List PropertyDetail),
    ps.foldl (detailStep fetch) acc =
      (acc.1 ++ catMap (fun p => detailEvents p.1 p.2) ps, ps.foldl (updOne fetch) acc.2) := by
  intro ps
  induction ps with
  | nil => intro acc; simp [catMap_nil]
  | cons p ps ih =>
    intro acc
    rw [List.foldl_cons, detailStep_eq, ih, List.foldl_cons, catMap_cons]
    simp [List.append_assoc]

theorem updFold_length (fetch : String → Option DetailDoc)
    (ps : List (Nat × BasicInfo)) (r : List PropertyDetail) :
    (ps.foldl (updOne fetch) r).length = r.length := by
  refine foldl_proj (updOne fetch) List.length ?_ ps r
  intro b a
  unfold updOne
  cases updVal fetch a.2 <;> simp

theorem updOne_none (fetch : String → Option DetailDoc) (r : List PropertyDetail)
    (k : Nat) (b : BasicInfo) (h : updVal fetch b = none) : updOne fetch r (k, b) = r := by
  simp only [updOne]
  rw [h]

theorem updOne_some (fetch : String → Option DetailDoc) (r : List PropertyDetail)
    (k : Nat) (b : BasicInfo) (v : PropertyDetail) (h : updVal fetch b = some v) :
    updOne fetch r (k, b) = r.set k v := by
  simp only [updOne]
  rw [h]

theorem updOne_get?_ne (fetch : String → Option DetailDoc) (r : List PropertyDetail)
    (k : Nat) (b : BasicInfo) (i : Nat) (hne : k ≠ i) :
    (updOne fetch r (k, b)).get? i = r.get? i := by
  cases h : updVal fetch b with
  | none => rw [updOne_none fetch r k b h]
  | some v => rw [updOne_some fetch r k b v h]; exact get?_set_ne r k i v hne

theorem updOne_length (fetch : String → Option DetailDoc) (r : List PropertyDetail)
    (k : Nat) (b : BasicInfo) : (updOne fetch r (k, b)).length = r.length := by
  cases h : updVal fetch b with
  | none => rw [updOne_none fetch r k b h]
  | some v => rw [updOne_some fetch r k b v h, List.length_set]

theorem updFold_get?_lt (fetch : String → Option DetailDoc) :
    ∀ (xs : List BasicInfo) (k : Nat) (r : List PropertyDetail) (i : Nat), i < k →
    ((xs.enumFrom k).foldl (updOne fetch) r).get? i = r.get? i := by
  intro xs
  induction xs with
  | nil => intro k r i _; rfl
  | cons b bs ih =>
    intro k r i hik
    show ((bs.enumFrom (k + 1)).foldl (updOne fetch) (updOne fetch r (k, b))).get? i = r.get? i
    rw [ih (k + 1) _ i (Nat.lt_succ_of_lt hik)]
    exact updOne_get?_ne fetch r k b i (Nat.ne_of_gt hik)

theorem updFold_get?_add (fetch : String → Option DetailDoc) :
    ∀ (xs : List BasicInfo) (k : Nat) (r : List PropertyDetail) (j : Nat),
    ((xs.enumFrom k).foldl (updOne fetch) r).get? (k + j) =
      match xs.get? j with
      | none => r.get? (k + j)
      | some b =>
        match updVal fetch b with
        | none => r.get? (k + j)
        | some v => if k + j < r.length then some v else none := by
  intro xs
  induction xs with
  | nil => intro k r j; rfl
  | cons b bs ih =>
    intro k r j
    show ((bs.enumFrom (k + 1)).foldl (updOne fetch) (updOne fetch r (k, b))).get? (k + j) = _
    cases j with
    | zero =>
      rw [updFold_get?_lt fetch bs (k + 1) _ (k + 0) (by omega)]
      show (updOne fetch r (k, b)).get? (k + 0) =
        match updVal fetch b with
        | none => r.get? (k + 0)
        | some v => if k + 0 < r.length then some v else none
      simp only [Nat.add_zero]
      cases h : updVal fetch b with
      | none => rw [updOne_none fetch r k b h]
      | some v => rw [updOne_some fetch r k b v h]; exact get?_set_self r k v
    | succ j' =>
      have harith : k + (j' + 1) = (k + 1) + j' := by omega
      rw [harith, ih (k + 1) (updOne fetch r (k, b)) j']
      have hget : (updOne fetch r (k, b)).get? ((k + 1) + j') = r.get? ((k + 1) + j') :=
        updOne_get?_ne fetch r k b ((k + 1) + j') (by omega)
      have hlen : (updOne fetch r (k, b)).length = r.length := updOne_length fetch r k b
      show (match bs.get? j' with
            | none => (updOne fetch r (k, b)).get? ((k + 1) + j')
            | some b' =>
              match updVal fetch b' with
              | none => (updOne fetch r (k, b)).get? ((k + 1) + j')
              | some v => if (k + 1) + j' < (updOne fetch r (k, b)).length then some v else none)
          = (match bs.get? j' with
            | none => r.get? ((k + 1) + j')
            | some b' =>
              match updVal fetch b' with
              | none => r.get? ((k + 1) + j')
              | some v => if (k + 1) + j' < r.length then some v else none)
      rw [hget, hlen]

theorem resolveRecord_eq_getD (fetch : String → Option DetailDoc) (b : BasicInfo) :
    resolveRecord fetch b = (updVal fetch b).getD (initPropertyData b) := by
  unfold resolveRecord updVal
  by_cases hu : b.url = ""
  · simp [hu]
  · simp only [hu, ite_false]
    cases fetch b.url <;> simp

/-- Events of the detail phase, in closed form. -/
theorem details_events (fetch : String → Option DetailDoc)
    (l : List BasicInfo) (md : Int) :
    (get_property_details fetch l md).1 =
      catMap (fun p => detailEvents p.1 p.2) ((l.take (detailLimit l md)).enum) := by
  unfold get_property_details
  rw [detailFold_eq]
  simp

/-- Records of the detail phase, in closed form: entry `i` is derived from
basic record `i`, resolved when `i` is within `detail_limit` and carried
forward otherwise. -/
theorem details_get? (fetch : String → Option DetailDoc)
    (l : List BasicInfo) (md : Int) (i : Nat) :
    (get_property_details fetch l md).2.get? i =
      (l.get? i).map (fun b =>
        if i < detailLimit l md then resolveRecord fetch b else initPropertyData b) := by
  unfold get_property_details
  rw [detailFold_eq]
  show ((List.enumFrom 0 (l.take (detailLimit l md))).foldl (updOne fetch)
      (l.map initPropertyData)).get? i = _
  have h := updFold_get?_add fetch (l.take (detailLimit l md)) 0 (l.map initPropertyData) i
  rw [Nat.zero_add] at h
  rw [h]
  by_cases hi : i < detailLimit l md
  · rw [List.get?_take hi]
    cases hb : l.get? i with
    | none => rw [List.get?_map, hb]; rfl
    | some b =>
      have hlt : i < l.length := (List.get?_eq_some.mp hb).1
      cases hv : updVal fetch b with
      | none =>
        simp only [Option.map_some']
        rw [List.get?_map, hb]
        simp only [Option.map_some', if_pos hi]
        rw [resolveRecord_eq_getD, hv]
        rfl
      | some v =>
        have : i < (l.map initPropertyData).length := by simpa using hlt
        simp only [if_pos this, Option.map_some', if_pos hi]
        rw [resolveRecord_eq_getD, hv]
        rfl
  · have htake : (l.take (detailLimit l md)).get? i = none := by
      apply List.get?_eq_none.mpr
      calc (l.take (detailLimit l md)).length ≤ detailLimit l md := by
            rw [List.length_take]; exact Nat.min_le_left _ _
        _ ≤ i := Nat.le_of_not_lt hi
    rw [htake, List.get?_map]
    cases l.get? i <;> simp [hi]

/-- The detail phase preserves the number of records. -/
theorem details_length (fetch : String → Option DetailDoc)
    (l : List BasicInfo) (md : Int) :
    (get_property_details fetch l md).2.length = l.length := by
  unfold get_property_details
  rw [detailFold_eq]
  show ((List.enumFrom 0 (l.take (detailLimit l md))).foldl (updOne fetch)
      (l.map initPropertyData)).length = l.length
  have : ∀ (ps : List (Nat × BasicInfo)) (r : List PropertyDetail),
      (ps.foldl (updOne fetch) r).length = r.length := by
    intro ps r
    refine foldl_proj (updOne fetch) List.length ?_ ps r
    intro b a
    exact updOne_length fetch b a.1 a.2
  rw [this, List.length_map]

/-! ### Closed forms of the listing loop -/

/-- Trace contribution of the page-loop iteration for page `p`. -/
def pageEvents (start_page : Int) (p : Int) : List Ev :=
  (if p > start_page then [Ev.wait 3 7] else []) ++ [Ev.fetch (pageUrl p)]

/-- Records contributed by the page-loop iteration for page `p`. -/
def pageRecords (fetch : String → Option ListingDoc) (p : Int) : List BasicInfo :=
  match fetch (pageUrl p) with
  | none => []
  | some doc => parseListingCards doc.cards

theorem linkStep_eq (fetch : String → Option ListingDoc) (start_page : Int)
    (acc : List Ev × List BasicInfo) (p : Int) :
    linkStep fetch start_page acc p =
      (acc.1 ++ pageEvents start_page p, acc.2 ++ pageRecords fetch p) := by
  cases h : fetch (pageUrl p) with
  | none => simp [linkStep, pageEvents, pageRecords, h, List.append_assoc]
  | some doc => simp [linkStep, pageEvents, pageRecords, h, List.append_assoc]

theorem linksFold_eq (fetch : String → Option ListingDoc) (start_page : Int) :
    ∀ (ps : List Int) (acc : List Ev × List BasicInfo),
    ps.foldl (linkStep fetch start_page) acc =
      (acc.1 ++ catMap (pageEvents start_page) ps,
       acc.2 ++ catMap (pageRecords fetch) ps) := by
  intro ps
  induction ps with
  | nil => intro acc; simp [catMap_nil]
  | cons p ps ih =>
    intro acc
    rw [List.foldl_cons, linkStep_eq, ih, catMap_cons, catMap_cons]
    simp [List.append_assoc]

/-- The page range of the listing phase (`range(start_page, end_page + 1)`
with `end_page = min(total_pages, max_pages)`). -/
def listingRange (fetch : String → Option ListingDoc) (max_pages start_page : Int) : List Int :=
  intRangeIncl start_page (min (Int.ofNat (get_total_pages (fetch baseUrl))) max_pages)

/-- Events of the listing phase, in closed form: the discovery fetch, then
per page an optional wait and the page fetch. -/
theorem links_events (fetch : String → Option ListingDoc) (max_pages start_page : Int) :
    (get_property_links fetch max_pages start_page).1 =
      Ev.fetch baseUrl :: catMap (pageEvents start_page) (listingRange fetch max_pages start_page) := by
  unfold get_property_links listingRange
  rw [linksFold_eq]
  rfl

/-- Records of the listing phase, in closed form. -/
theorem links_records (fetch : String → Option ListingDoc) (max_pages start_page : Int) :
    (get_property_links fetch max_pages start_page).2 =
      catMap (pageRecords fetch) (listingRange fetch max_pages start_page) := by
  unfold get_property_links listingRange
  rw [linksFold_eq]
  rfl

theorem fetchUrls_append (l1 l2 : List Ev) :
    fetchUrls (l1 ++ l2) = fetchUrls l1 ++ fetchUrls l2 := by
  unfold fetchUrls
  exact List.filterMap_append l1 l2 _

theorem fetchUrls_pageEvents (start_page p : Int) :
    fetchUrls (pageEvents start_page p) = [pageUrl p] := by
  unfold pageEvents fetchUrls
  by_cases h : p > start_page <;> simp [h]

theorem fetchUrls_catMap_pageEvents (start_page : Int) :
    ∀ ps : List Int, fetchUrls (catMap (pageEvents start_page) ps) = ps.map pageUrl := by
  intro ps
  induction ps with
  | nil => rfl
  | cons p ps ih => rw [catMap_cons, fetchUrls_append, fetchUrls_pageEvents, ih]; rfl

/-- The fetched URLs of the listing phase: the discovery fetch of the base
URL followed by exactly the pages of `range(start_page, end_page + 1)` —
with no clamping of `start_page`. -/
theorem links_fetchUrls (fetch : String → Option ListingDoc) (max_pages start_page : Int) :
    fetchUrls (get_property_links fetch max_pages start_page).1 =
      baseUrl :: (listingRange fetch max_pages start_page).map pageUrl := by
  rw [links_events]
  show fetchUrls ([Ev.fetch baseUrl] ++ catMap (pageEvents start_page) _) = _
  rw [fetchUrls_append, fetchUrls_catMap_pageEvents]
  rfl

/-! ### Field-preservation lemmas for the detail parser -/

theorem classifyLV_propertyId (label value : String) (pd : PropertyDetail) :
    (classifyLV label value pd).propertyId = pd.propertyId := by
  unfold classifyLV
  split_ifs <;> rfl

theorem processItem_propertyId {α : Type} (getLV : α → Option (String × String))
    (pd : PropertyDetail) (it : Raisable α) :
    (processItem getLV pd it).propertyId = pd.propertyId := by
  cases it with
  | raised => rfl
  | val a =>
    cases h : getLV a with
    | none => simp [processItem, h]
    | some lv =>
      obtain ⟨label, value⟩ := lv
      simp only [processItem, h]
      split_ifs with hc
      · exact classifyLV_propertyId label value pd
      · rfl

theorem processItems_propertyId {α : Type} (getLV : α → Option (String × String))
    (items : List (Raisable α)) (pd : PropertyDetail) :
    (processItems getLV items pd).propertyId = pd.propertyId :=
  foldl_proj (processItem getLV) PropertyDetail.propertyId
    (fun b a => processItem_propertyId getLV b a) items pd

theorem stepDate_propertyId (soup : DetailDoc) (pd : PropertyDetail) :
    (stepDate soup pd).propertyId = pd.propertyId := by
  unfold stepDate stepDateRaw stepDateSel
  split_ifs <;> (try split) <;> (try split) <;> rfl

theorem stepFloor_propertyId (soup : DetailDoc) (pd : PropertyDetail) :
    (stepFloor soup pd).propertyId = pd.propertyId := by
  unfold stepFloor stepFloorRaw stepFloorSel
  split_ifs <;> (try split) <;> (try split) <;> rfl

theorem stepDetails_propertyId (soup : DetailDoc) (pd : PropertyDetail) :
    (stepDetails soup pd).propertyId = pd.propertyId := by
  unfold stepDetails
  (try split) <;> (try split) <;> (try split) <;> (try split) <;>
    simp [processItems_propertyId]

theorem stepDescr_propertyId (description : String) (pd : PropertyDetail) :
    (stepDescr description pd).propertyId = pd.propertyId := by
  unfold stepDescr stepDescrLease stepDescrFurn
  split_ifs <;> (try split) <;> rfl

theorem descrFlags_propertyId (description : String) (pd : PropertyDetail) :
    (descrSaunaFlag description (descrWifiFlag description pd)).propertyId = pd.propertyId := by
  unfold descrSaunaFlag descrWifiFlag
  split_ifs <;> rfl

theorem stepAmenities_propertyId (soup : DetailDoc) (description : String) (pd : PropertyDetail) :
    (stepAmenities soup description pd).propertyId = pd.propertyId := by
  unfold stepAmenities
  (try split) <;> (try split) <;> (try split) <;>
    first
    | rfl
    | (split_ifs <;> first | rfl | exact descrFlags_propertyId description pd)

theorem stepContact_propertyId (soup : DetailDoc) (pd : PropertyDetail) :
    (stepContact soup pd).propertyId = pd.propertyId := by
  unfold stepContact
  (try split) <;> (try split) <;> rfl

/-! ### Status and property-id characterizations of the detail parser -/

theorem extract_detail_data_status (soup : DetailDoc) (basic : BasicInfo) :
    (extract_detail_data soup basic).status = "詳細取得済" := rfl

theorem initPropertyData_status (basic : BasicInfo) :
    (initPropertyData basic).status = "基本情報のみ" := rfl

/-- The property id the claim-relevant tiers resolve to. -/
def resolvedPropertyId (soup : DetailDoc) (basic : BasicInfo) : String :=
  match firstSome [soup.idSel1, soup.idSel2, soup.idSel3] with
  | some t => t.pyStrip
  | none =>
    match afterLastSlash basic.url.toList with
    | some seg => String.mk seg
    | none => "不明"

theorem stepId_propertyId (soup : DetailDoc) (basic : BasicInfo) :
    (stepId soup basic (initDetailRecord basic)).propertyId = resolvedPropertyId soup basic := by
  unfold stepId stepIdSel stepIdUrl resolvedPropertyId
  cases firstSome [soup.idSel1, soup.idSel2, soup.idSel3] <;>
    cases afterLastSlash basic.url.toList <;> rfl

theorem extract_detail_data_propertyId (soup : DetailDoc) (basic : BasicInfo) :
    (extract_detail_data soup basic).propertyId = resolvedPropertyId soup basic := by
  show (stepContact soup (stepAmenities soup (resolveDescr soup basic)
      (stepDescr (resolveDescr soup basic) (stepDetails soup (stepFloor soup
        (stepDate soup (stepId soup basic (initDetailRecord basic)))))))).propertyId =
    resolvedPropertyId soup basic
  rw [stepContact_propertyId, stepAmenities_propertyId, stepDescr_propertyId,
    stepDetails_propertyId, stepFloor_propertyId, stepDate_propertyId,
    stepId_propertyId]

/-! ### Isolation of the per-item handler -/

theorem processItem_raised {α : Type} (getLV : α → Option (String × String))
    (pd : PropertyDetail) : processItem getLV pd Raisable.raised = pd := rfl

theorem processItems_raised {α : Type} (getLV : α → Option (String × String))
    (l₁ l₂ : List (Raisable α)) (pd : PropertyDetail) :
    processItems getLV (l₁ ++ Raisable.raised :: l₂) pd = processItems getLV (l₁ ++ l₂) pd := by
  unfold processItems
  rw [List.foldl_append, List.foldl_append, List.foldl_cons, processItem_raised]

/-! ## Claims -/

/-- Pagination block with one item carrying `data-value` 2 and one item
with no `data-value` but text 9: the claim's tiering should give 2 (the
maximum of the data-values), the code gives 9 (it mixes both sources per
item). -/
def c1CexDoc : ListingDoc :=
  { pageItems := some [{ dataValue := some "2", text := "" },
                       { dataValue := none, text := "9" }],
    lastPageHref := none, cards := [] }

/-- Claim C1, counterexample: on `c1CexDoc` the code's page count is 9
while the claimed tiering (max of numeric data-values first, text contents
only if none) yields 2, so the claim's resolution order is false on the
code. -/
theorem claim_C1_counterexample :
    get_total_pages (some c1CexDoc) = 9 ∧
      get_total_pages_claimTiered (some c1CexDoc) = 2 := by
  constructor <;> decide

/-- Pagination items with `data-value` 1, 2, 5, 3. -/
def c1DvDoc : ListingDoc :=
  { pageItems := some [{ dataValue := some "1", text := "" },
                       { dataValue := some "2", text := "" },
                       { dataValue := some "5", text := "" },
                       { dataValue := some "3", text := "" }],
    lastPageHref := none, cards := [] }

/-- No pagination block, but a last-page link with `page=7` in its href. -/
def c1HrefDoc : ListingDoc :=
  { pageItems := none,
    lastPageHref := some (some "https://www.hipflat.co.th/ja/apartment-for-rent/pattaya?page=7"),
    cards := [] }

/-- Neither a pagination block nor a last-page link. -/
def c1NeitherDoc : ListingDoc :=
  { pageItems := none, lastPageHref := none, cards := [] }

/-- Claim C1 (amended): each pagination item contributes its numeric
`data-value` if it has one, otherwise its numeric stripped text; the total
page count is the maximum of all contributions; when there are none, the
`page=(\d+)` regex on the last-page link's href decides; when that also
fails (or the fetch fails), the result is 1.  The claim's concrete
scenarios hold: data-values {1,2,5,3} give 5, a last-page link with
`page=7` gives 7, neither gives 1. -/
theorem claim_C1 :
    (∀ d : ListingDoc, get_total_pages (some d) =
      (match (d.pageItems.getD []).filterMap pageItemNumber with
       | [] => lastLinkTier d
       | n :: ns => (n :: ns).foldl max 0)) ∧
    get_total_pages none = 1 ∧
    get_total_pages (some c1DvDoc) = 5 ∧
    get_total_pages (some c1HrefDoc) = 7 ∧
    get_total_pages (some c1NeitherDoc) = 1 := by
  refine ⟨?_, rfl, by decide, by decide, by decide⟩
  intro d
  unfold get_total_pages
  cases hp : d.pageItems with
  | none => simp [hp]
  | some items =>
    cases h : items.filterMap pageItemNumber with
    | nil => simp [hp, h]
    | cons n ns => simp [hp, h]

/-- A listing card with a relative href. -/
def c3CardA : Card :=
  { linkHref := some "/a", titleText := none, priceText := none, addressText := none,
    descrText := none, sizeSel1 := none, sizeSel2 := none, sizeSel3 := none, rawHtml := "" }

/-- A listing card without a resolvable URL. -/
def c3CardNoUrl : Card :=
  { linkHref := none, titleText := some "no link", priceText := none, addressText := none,
    descrText := none, sizeSel1 := none, sizeSel2 := none, sizeSel3 := none, rawHtml := "" }

/-- A listing card with an absolute href. -/
def c3CardB : Card :=
  { linkHref := some "http://x/b", titleText := none, priceText := none, addressText := none,
    descrText := none, sizeSel1 := none, sizeSel2 := none, sizeSel3 := none, rawHtml := "" }

/-- Claim C3: every record the listing parser outputs has a nonempty URL;
the output is exactly the extraction of the cards whose extraction
resolves a URL, in document order; and the concrete scenario holds: three
cards of which the middle one lacks a URL yield exactly the two records of
the outer cards, in order. -/
theorem claim_C3 :
    (∀ cards : List Card, (parseListingCards cards).all (fun b => b.url != "") = true) ∧
    (∀ cards : List Card, parseListingCards cards =
      (cards.filter (fun c => (extract_property_data_from_card c).url != "")).map
        extract_property_data_from_card) ∧
    parseListingCards [c3CardA, c3CardNoUrl, c3CardB] =
      [extract_property_data_from_card c3CardA, extract_property_data_from_card c3CardB] ∧
    (parseListingCards [c3CardA, c3CardNoUrl, c3CardB]).length = 2 := by
  refine ⟨?_, ?_, by decide, by decide⟩
  · intro cards
    refine List.all_eq_true.mpr ?_
    intro b hb
    exact (List.mem_filter.mp hb).2
  · intro cards
    exact filter_map_comm extract_property_data_from_card _ cards

/-! ### Soundness of the run-based scanners (for claim C9) -/

theorem takeRun_sound (p : Char → Bool) : ∀ l : List Char,
    (takeRun p l).1.all p = true ∧
    (takeRun p l).1 ++ (takeRun p l).2 = l ∧
    (∀ c, (takeRun p l).2.head? = some c → p c = false) := by
  intro l
  induction l with
  | nil => exact ⟨rfl, rfl, fun c h => by cases h⟩
  | cons c cs ih =>
    by_cases hc : p c = true
    · refine ⟨?_, ?_, ?_⟩ <;> simp only [takeRun, hc, if_true]
      · simp [hc, ih.1]
      · simp [ih.2.1]
      · exact ih.2.2
    · have hc' : p c = false := by simpa using hc
      refine ⟨?_, ?_, ?_⟩ <;> simp only [takeRun, hc', Bool.false_eq_true, if_false]
      · rfl
      · rfl
      · intro d hd
        cases hd
        exact hc'

theorem takeRun_exact (p : Char → Bool) : ∀ (r rest : List Char),
    r.all p = true → (∀ c, rest.head? = some c → p c = false) →
    takeRun p (r ++ rest) = (r, rest) := by
  intro r
  induction r with
  | nil =>
    intro rest _ hrest
    cases rest with
    | nil => rfl
    | cons c cs =>
      have : p c = false := hrest c rfl
      simp [takeRun, this]
  | cons a as ih =>
    intro rest hall hrest
    simp only [List.all_cons, Bool.and_eq_true] at hall
    show takeRun p (a :: (as ++ rest)) = (a :: as, rest)
    simp only [takeRun, hall.1, if_true]
    rw [ih rest hall.2 hrest]

theorem takeRun1_exact (p : Char → Bool) (a : Char) (r rest : List Char)
    (hall : (a :: r).all p = true) (hrest : ∀ c, rest.head? = some c → p c = false) :
    takeRun1 p ((a :: r) ++ rest) = some (a :: r, rest) := by
  unfold takeRun1
  rw [takeRun_exact p (a :: r) rest hall hrest]

theorem takeRun1_sound (p : Char → Bool) (l : List Char) (pr : List Char × List Char)
    (h : takeRun1 p l = some pr) :
    pr.1 ≠ [] ∧ pr.1.all p = true ∧ pr.1 ++ pr.2 = l ∧
      (∀ c, pr.2.head? = some c → p c = false) := by
  unfold takeRun1 at h
  rcases hr : takeRun p l with ⟨r, rest⟩
  rw [hr] at h
  cases r with
  | nil => cases h
  | cons a as =>
    have := takeRun_sound p l
    rw [hr] at this
    cases h
    exact ⟨by simp, this.1, this.2.1, this.2.2⟩

theorem ws_not_digit (c : Char) (h : isPyWS c = true) : Char.isDigit c = false := by
  unfold isPyWS at h
  simp only [Bool.or_eq_true, decide_eq_true_eq] at h
  rcases h with ((((h | h) | h) | h) | h) | h <;> subst h <;> decide

theorem ws_not_dot (c : Char) (h : isPyWS c = true) : c ≠ '.' := by
  unfold isPyWS at h
  simp only [Bool.or_eq_true, decide_eq_true_eq] at h
  rcases h with ((((h | h) | h) | h) | h) | h <;> subst h <;> decide

theorem numChars_plain (d : List Char) (hne : d ≠ []) (hall : d.all Char.isDigit = true) :
    numChars d = true := by
  cases d with
  | nil => exact absurd rfl hne
  | cons a as =>
    have h := takeRun1_exact Char.isDigit a as [] hall (fun c hc => by cases hc)
    rw [List.append_nil] at h
    unfold numChars
    rw [h]

theorem numChars_frac (d f : List Char) (hd : d ≠ []) (hda : d.all Char.isDigit = true)
    (hf : f ≠ []) (hfa : f.all Char.isDigit = true) :
    numChars (d ++ '.' :: f) = true := by
  cases d with
  | nil => exact absurd rfl hd
  | cons a as =>
    have h1 := takeRun1_exact Char.isDigit a as ('.' :: f) hda
      (fun c hc => by cases hc; decide)
    unfold numChars
    rw [h1]
    show (if '.' = '.' then
            (match takeRun1 Char.isDigit f with
             | some pr2 => pr2.2.isEmpty
             | none => false)
          else false) = true
    rw [if_pos rfl]
    cases f with
    | nil => exact absurd rfl hf
    | cons b bs =>
      have h2 := takeRun1_exact Char.isDigit b bs [] hfa (fun c hc => by cases hc)
      rw [List.append_nil] at h2
      rw [h2]
      rfl

theorem sizeFracPart_numChars (d r1 : List Char) (hd : d ≠ []) (hda : d.all Char.isDigit = true) :
    numChars (sizeFracPart d r1).1 = true := by
  cases r1 with
  | nil => exact numChars_plain d hd hda
  | cons c cs =>
    show numChars (if c = '.' then
        (match takeRun1 Char.isDigit cs with
         | some pr => (d ++ '.' :: pr.1, pr.2)
         | none => (d, c :: cs)) else (d, c :: cs)).1 = true
    by_cases hc : c = '.'
    · rw [if_pos hc]
      cases h2 : takeRun1 Char.isDigit cs with
      | none => exact numChars_plain d hd hda
      | some pr2 =>
        have hs := takeRun1_sound Char.isDigit cs pr2 h2
        exact numChars_frac d pr2.1 hd hda hs.1 hs.2.1
    · rw [if_neg hc]
      exact numChars_plain d hd hda

theorem sizeAt_sound (l : List Char) (pr : List Char × List Char) (h : sizeAt l = some pr) :
    numChars pr.1 = true ∧
      ∃ w : List Char, w.all isPyWS = true ∧ pr.2 = pr.1 ++ w ++ "m²".toList := by
  unfold sizeAt at h
  cases h1 : takeRun1 Char.isDigit l with
  | none => rw [h1] at h; cases h
  | some dr =>
    obtain ⟨d, r1⟩ := dr
    rw [h1] at h
    have hs := takeRun1_sound Char.isDigit l (d, r1) h1
    have hnum : numChars (sizeFracPart d r1).1 = true :=
      sizeFracPart_numChars d r1 hs.1 hs.2.1
    have h' : sizeTail (sizeFracPart d r1) = some pr := h
    unfold sizeTail at h'
    cases h2 : dropLit "m²".toList (takeRun isPyWS (sizeFracPart d r1).2).2 with
    | none => rw [h2] at h'; cases h'
    | some rest =>
      rw [h2] at h'
      cases h'
      exact ⟨hnum, (takeRun isPyWS (sizeFracPart d r1).2).1,
        (takeRun_sound isPyWS (sizeFracPart d r1).2).1, rfl⟩

theorem scanFirst_sound {α : Type} (f : List Char → Option α) (P : α → Prop)
    (hf : ∀ l a, f l = some a → P a) : ∀ (l : List Char) (a : α), scanFirst f l = some a → P a := by
  intro l
  induction l with
  | nil => intro a h; exact hf [] a h
  | cons c cs ih =>
    intro a h
    unfold scanFirst at h
    cases hm : f (c :: cs) with
    | some b => rw [hm] at h; cases h; exact hf _ _ hm
    | none => rw [hm] at h; exact ih a h

theorem searchSize_sound (s : String) (pr : List Char × List Char)
    (h : searchSize s = some pr) :
    numChars pr.1 = true ∧
      ∃ w : List Char, w.all isPyWS = true ∧ pr.2 = pr.1 ++ w ++ "m²".toList := by
  exact scanFirst_sound sizeAt
    (fun a => numChars a.1 = true ∧ ∃ w, w.all isPyWS = true ∧ a.2 = a.1 ++ w ++ "m²".toList)
    (fun l a hl => sizeAt_sound l a hl) s.toList pr h

theorem sizeFracPart_not_dot (d r1 : List Char)
    (h : ∀ c, r1.head? = some c → c ≠ '.') : sizeFracPart d r1 = (d, r1) := by
  cases r1 with
  | nil => rfl
  | cons c cs =>
    show (if c = '.' then
        (match takeRun1 Char.isDigit cs with
         | some pr => (d ++ '.' :: pr.1, pr.2)
         | none => (d, c :: cs)) else (d, c :: cs)) = (d, c :: cs)
    rw [if_neg (h c rfl)]

theorem head_wm_not_digit (w : List Char) (hw : w.all isPyWS = true) :
    ∀ c, (w ++ "m²".toList).head? = some c → Char.isDigit c = false := by
  intro c hc
  cases w with
  | nil =>
    have h := Option.some.inj (show some 'm' = some c from hc)
    subst h
    decide
  | cons a as =>
    simp only [List.all_cons, Bool.and_eq_true] at hw
    have h := Option.some.inj (show some a = some c from hc)
    subst h
    exact ws_not_digit a hw.1

theorem head_wm_not_dot (w : List Char) (hw : w.all isPyWS = true) :
    ∀ c, (w ++ "m²".toList).head? = some c → c ≠ '.' := by
  intro c hc
  cases w with
  | nil =>
    have h := Option.some.inj (show some 'm' = some c from hc)
    subst h
    decide
  | cons a as =>
    simp only [List.all_cons, Bool.and_eq_true] at hw
    have h := Option.some.inj (show some a = some c from hc)
    subst h
    exact ws_not_dot a hw.1

theorem sizeTail_self (g1 w : List Char) (hw : w.all isPyWS = true) :
    sizeTail (g1, w ++ "m²".toList) = some (g1, g1 ++ w ++ "m²".toList) := by
  unfold sizeTail
  have ht : takeRun isPyWS (w ++ "m²".toList) = (w, "m²".toList) :=
    takeRun_exact isPyWS w "m²".toList hw
      (fun c hc => by
        have h := Option.some.inj (show some 'm' = some c from hc)
        subst h
        decide)
  show (match dropLit "m²".toList (takeRun isPyWS ((g1, w ++ "m²".toList)).2).2 with
        | some _ => some (g1, g1 ++ (takeRun isPyWS ((g1, w ++ "m²".toList)).2).1 ++ "m²".toList)
        | none => none) = some (g1, g1 ++ w ++ "m²".toList)
  rw [show ((g1, w ++ "m²".toList)).2 = w ++ "m²".toList from rfl, ht]
  rfl

/-- A `group(0)` of the size regex re-matches against itself from position
zero, consuming everything. -/
theorem sizeAt_self (g1 w : List Char) (hg : numChars g1 = true) (hw : w.all isPyWS = true) :
    sizeAt (g1 ++ w ++ "m²".toList) = some (g1, g1 ++ w ++ "m²".toList) := by
  unfold numChars at hg
  cases h1 : takeRun1 Char.isDigit g1 with
  | none => rw [h1] at hg; cases hg
  | some pr =>
    rw [h1] at hg
    have hg' : (match pr.2 with
        | [] => true
        | c :: r2 =>
          if c = '.' then
            (match takeRun1 Char.isDigit r2 with
             | some pr2 => pr2.2.isEmpty
             | none => false)
          else false) = true := hg
    have hs := takeRun1_sound Char.isDigit g1 pr h1
    cases h2 : pr.2 with
    | nil =>
      have hg1 : pr.1 ++ ([] : List Char) = g1 := h2 ▸ hs.2.2.1
      rw [List.append_nil] at hg1
      subst hg1
      cases hp : pr.1 with
      | nil => exact absurd hp hs.1
      | cons a as =>
        unfold sizeAt
        have hassoc : (a :: as) ++ w ++ "m²".toList = (a :: as) ++ (w ++ "m²".toList) := by
          rw [List.append_assoc]
        rw [hassoc, takeRun1_exact Char.isDigit a as (w ++ "m²".toList)
          (hp ▸ hs.2.1) (head_wm_not_digit w hw)]
        show sizeTail (sizeFracPart (a :: as) (w ++ "m²".toList)) = _
        rw [sizeFracPart_not_dot _ _ (head_wm_not_dot w hw), sizeTail_self _ w hw,
          ← List.append_assoc]
    | cons c cs =>
      rw [h2] at hg'
      by_cases hc : c = '.'
      · subst hc
        have hg2 : (match takeRun1 Char.isDigit cs with
            | some pr2 => pr2.2.isEmpty
            | none => false) = true := hg'
        cases h3 : takeRun1 Char.isDigit cs with
        | none => rw [h3] at hg2; cases hg2
        | some pr2 =>
          rw [h3] at hg2
          have hg3 : pr2.2.isEmpty = true := hg2
          have hs2 := takeRun1_sound Char.isDigit cs pr2 h3
          have hcs : pr2.2 = [] := by
            cases hp2 : pr2.2 with
            | nil => rfl
            | cons x xs => rw [hp2] at hg3; cases hg3
          have hcs' : pr2.1 = cs := by
            have h4 := hs2.2.2.1
            rw [hcs, List.append_nil] at h4
            exact h4
          have hg1 : g1 = pr.1 ++ '.' :: cs := by rw [← hs.2.2.1, h2]
          cases hp : pr.1 with
          | nil => exact absurd hp hs.1
          | cons a as =>
            cases hq : cs with
            | nil =>
              rw [hq] at hcs'
              exact absurd hcs' (by simpa using hs2.1)
            | cons b bs =>
              unfold sizeAt
              have hassoc : g1 ++ w ++ "m²".toList =
                  (a :: as) ++ ('.' :: ((b :: bs) ++ (w ++ "m²".toList))) := by
                rw [hg1, hp, hq]
                simp [List.append_assoc]
              rw [hassoc, takeRun1_exact Char.isDigit a as ('.' :: ((b :: bs) ++ (w ++ "m²".toList)))
                (hp ▸ hs.2.1) (fun c hcx => by
                  have h := Option.some.inj (show some '.' = some c from hcx)
                  subst h
                  decide)]
              show sizeTail (sizeFracPart (a :: as) ('.' :: ((b :: bs) ++ (w ++ "m²".toList)))) = _
              have hfrac : sizeFracPart (a :: as) ('.' :: ((b :: bs) ++ (w ++ "m²".toList))) =
                  ((a :: as) ++ '.' :: (b :: bs), w ++ "m²".toList) := by
                show (if ('.' : Char) = '.' then
                    (match takeRun1 Char.isDigit ((b :: bs) ++ (w ++ "m²".toList)) with
                     | some prx => ((a :: as) ++ '.' :: prx.1, prx.2)
                     | none => ((a :: as), '.' :: ((b :: bs) ++ (w ++ "m²".toList))))
                  else ((a :: as), '.' :: ((b :: bs) ++ (w ++ "m²".toList)))) = _
                rw [if_pos rfl, takeRun1_exact Char.isDigit b bs (w ++ "m²".toList)
                  (by rw [← hq, ← hcs']; exact hs2.2.1) (head_wm_not_digit w hw)]
              rw [hfrac, sizeTail_self _ w hw]
              rw [hg1, hp, hq]
              simp [List.append_assoc]
      · have hg2 : (if c = '.' then
            (match takeRun1 Char.isDigit cs with
             | some pr2 => pr2.2.isEmpty
             | none => false)
          else false) = true := hg'
        rw [if_neg hc] at hg2
        cases hg2

theorem claimedSizeForm_mk (g1 : List Char) :
    claimedSizeForm (String.mk g1 ++ " m²") = numChars g1 := by
  unfold claimedSizeForm
  rw [show (String.mk g1 ++ " m²").toList = g1 ++ " m²".toList from rfl]
  rw [show (g1 ++ " m²".toList).reverse = '²' :: 'm' :: ' ' :: g1.reverse from by
    rw [List.reverse_append]; rfl]
  show numChars g1.reverse.reverse = numChars g1
  rw [List.reverse_reverse]

theorem rawSizeForm_of (g1 w : List Char) (hg : numChars g1 = true) (hw : w.all isPyWS = true) :
    rawSizeForm (String.mk (g1 ++ w ++ "m²".toList)) = true := by
  unfold rawSizeForm
  rw [show (String.mk (g1 ++ w ++ "m²".toList)).toList = g1 ++ w ++ "m²".toList from rfl]
  rw [sizeAt_self g1 w hg hw]
  simp

theorem sizeSelLoop_form : ∀ (ls : List (Option String)) (s : String),
    sizeSelLoop ls = some s → ∃ g1 : List Char, numChars g1 = true ∧ s = String.mk g1 ++ " m²" := by
  intro ls
  induction ls with
  | nil => intro s h; cases h
  | cons o rest ih =>
    intro s h
    cases o with
    | none => exact ih s h
    | some t =>
      have h' : (match searchSize t.pyStrip with
          | some pr => some (String.mk pr.1 ++ " m²")
          | none => sizeSelLoop rest) = some s := h
      cases hm : searchSize t.pyStrip with
      | none => rw [hm] at h'; exact ih s h'
      | some pr =>
        rw [hm] at h'
        cases h'
        exact ⟨pr.1, (searchSize_sound t.pyStrip pr hm).1, rfl⟩

/-- Shape the amended claim allows for the size field: empty, number-space-m²
(the selector tiers), or the raw regex match number-whitespace-m². -/
def sizeOk (s : String) : Bool :=
  s == "" || claimedSizeForm s || rawSizeForm s

/-- A card whose size selectors match nothing and whose raw markup
contains `120m²` with no space. -/
def c9Card : Card :=
  { linkHref := some "/x", titleText := none, priceText := none, addressText := none,
    descrText := none, sizeSel1 := none, sizeSel2 := none, sizeSel3 := none,
    rawHtml := "abc120m²" }

/-- Claim C9, counterexample: on `c9Card` the raw-markup fallback stores
the regex `group(0)` verbatim, producing `"120m²"`, which is neither empty
nor of the claimed normalized form number-space-`m²`. -/
theorem claim_C9_counterexample :
    (extract_property_data_from_card c9Card).size = "120m²" ∧
      claimedSizeForm "120m²" = false ∧ "120m²" ≠ "" := by
  refine ⟨by decide, by decide, by decide⟩

/-- Claim C9 (amended): for every listing card the produced size is empty,
or of the normalized form `"<number> m²"` (the selector tiers), or the
verbatim text of a raw-markup match `<number><whitespace>m²` — the final
fallback stores `group(0)` and therefore preserves the source spacing,
including no space at all. -/
theorem claim_C9 (card : Card) : sizeOk (extract_property_data_from_card card).size = true := by
  show sizeOk (match sizeSelLoop [card.sizeSel1, card.sizeSel2, card.sizeSel3] with
    | some s => s
    | none =>
      match searchSize card.rawHtml with
      | some pr => String.mk pr.2
      | none => "") = true
  cases hs : sizeSelLoop [card.sizeSel1, card.sizeSel2, card.sizeSel3] with
  | some s =>
    obtain ⟨g1, hg1, rfl⟩ := sizeSelLoop_form _ s hs
    show sizeOk (String.mk g1 ++ " m²") = true
    unfold sizeOk
    rw [claimedSizeForm_mk, hg1]
    simp
  | none =>
    cases hr : searchSize card.rawHtml with
    | none => rfl
    | some pr =>
      obtain ⟨hnum, w, hw, hpr2⟩ := searchSize_sound card.rawHtml pr hr
      show sizeOk (String.mk pr.2) = true
      unfold sizeOk
      rw [hpr2, rawSizeForm_of pr.1 w hnum hw]
      simp

/-- Fetch oracle whose every page has no pagination data (total pages
resolves to 1). -/
def c5Fetch : String → Option ListingDoc :=
  fun _ => some { pageItems := none, lastPageHref := none, cards := [] }

/-- Claim C5, counterexample: with total_pages = max_pages = 1 and
`start_page = 0`, the orchestrator fetches page 0 (URL `?page=0`) — a
`start_page` below 1 is not raised to 1, so the claimed clamping of
`start_page` to `[1, end_page]` is false on the code. -/
theorem claim_C5_counterexample :
    fetchUrls (get_property_links c5Fetch 1 0).1 =
      [baseUrl, baseUrl ++ "?page=0", baseUrl] ∧
    (baseUrl ++ "?page=0") ∈ fetchUrls (get_property_links c5Fetch 1 0).1 := by
  constructor <;> decide

/-- Claim C5 (amended): the listing phase performs the discovery fetch of
the base URL and then fetches exactly the pages of
`range(start_page, min(total_pages, max_pages) + 1)` in order — with no
clamping of `start_page`: values below 1 produce fetches of nonpositive
page numbers, and a `start_page` above `end_page` produces an empty range
and no page fetches at all. -/
theorem claim_C5 :
    (∀ (fetch : String → Option ListingDoc) (max_pages start_page : Int),
      fetchUrls (get_property_links fetch max_pages start_page).1 =
        baseUrl :: (intRangeIncl start_page
          (min (Int.ofNat (get_total_pages (fetch baseUrl))) max_pages)).map pageUrl) ∧
    (∀ a b : Int, b < a → intRangeIncl a b = []) := by
  constructor
  · intro fetch max_pages start_page
    rw [links_fetchUrls]
    rfl
  · intro a b hab
    unfold intRangeIncl
    have : (b + 1 - a).toNat = 0 := by omega
    rw [this]
    rfl

/-- Claim C5, witness: the second conjunct of `claim_C5` at `a = 3`,
`b = 2`, and the first at the concrete oracle `c5Fetch`. -/
theorem claim_C5_witness :
    intRangeIncl 3 2 = [] ∧
      fetchUrls (get_property_links c5Fetch 1 2).1 = [baseUrl] := by
  constructor
  · exact claim_C5.2 3 2 (by decide)
  · rw [claim_C5.1 c5Fetch 1 2]
    decide

/-- Listing oracle for the C7 counterexample: the base URL reports 2 pages. -/
def c7Fetch : String → Option ListingDoc :=
  fun u =>
    if u = baseUrl then
      some { pageItems := some [{ dataValue := some "2", text := "" }],
             lastPageHref := none, cards := [] }
    else some { pageItems := none, lastPageHref := none, cards := [] }

/-- A basic record without a URL. -/
def c7Basic0 : BasicInfo :=
  { title := "t0", price := "p", address := "a", description := "", size := "", url := "" }

/-- A basic record with a URL. -/
def c7Basic1 : BasicInfo :=
  { title := "t1", price := "p", address := "a", description := "", size := "",
    url := "http://h/u1" }

/-- Claim C7, counterexample: (listing phase) with 2 total pages,
`max_pages = 2`, `start_page = 1`, the trace is discovery fetch, page-1
fetch, wait, page-2 fetch — the second fetch of the phase is not preceded
by a randomized wait; (detail phase) when record 0 has no URL and record 1
has one, the trace is a 3–5 wait immediately followed by the phase's first
fetch — a randomized wait does occur before the first fetch of the detail
phase. -/
theorem claim_C7_counterexample :
    (get_property_links c7Fetch 2 1).1 =
      [Ev.fetch baseUrl, Ev.fetch baseUrl, Ev.wait 3 7,
       Ev.fetch (baseUrl ++ "?page=2")] ∧
    (get_property_details (fun _ => none) [c7Basic0, c7Basic1] 2).1 =
      [Ev.wait 3 5, Ev.fetch "http://h/u1"] := by
  constructor <;> decide

/-- Claim C7 (amended): waits are keyed to loop position, not fetch
ordinality.  Listing phase: the trace is the unwaited discovery fetch
followed, for each page `p` of the range, by a uniform(3,7) wait exactly
when `p > start_page` and then the fetch of page `p` (so the discovery
fetch and the first page fetch are consecutive unwaited fetches).  Detail
phase: for each record of index `idx < detail_limit` that has a URL, a
uniform(3,5) wait exactly when `idx > 0` and then the fetch; in
particular no wait precedes record 0's fetch, but when an early record
lacks a URL the phase's first actual fetch can be preceded by a wait. -/
theorem claim_C7 :
    (∀ (fetch : String → Option ListingDoc) (max_pages start_page : Int),
      (get_property_links fetch max_pages start_page).1 =
        Ev.fetch baseUrl ::
          catMap (pageEvents start_page) (listingRange fetch max_pages start_page)) ∧
    (∀ (fetch : String → Option DetailDoc) (l : List BasicInfo) (md : Int),
      (get_property_details fetch l md).1 =
        catMap (fun p => detailEvents p.1 p.2) ((l.take (detailLimit l md)).enum)) ∧
    (∀ (fetch : String → Option DetailDoc) (l : List BasicInfo) (md : Int) (b : BasicInfo),
      l.head? = some b → b.url ≠ "" → 0 < detailLimit l md →
      (get_property_details fetch l md).1.head? = some (Ev.fetch b.url)) := by
  refine ⟨links_events, details_events, ?_⟩
  intro fetch l md b hhead hurl hdl
  rw [details_events]
  cases l with
  | nil => cases hhead
  | cons b0 bs =>
    have hb : b0 = b := Option.some.inj hhead
    subst hb
    cases hdlv : detailLimit (b0 :: bs) md with
    | zero => rw [hdlv] at hdl; cases hdl
    | succ n =>
      show (catMap (fun p => detailEvents p.1 p.2) ((0, b0) :: List.enumFrom 1 (bs.take n))).head? =
        some (Ev.fetch b0.url)
      rw [catMap_cons]
      unfold detailEvents
      rw [if_neg hurl]
      rfl

/-- Claim C7, witness: the head-of-trace conjunct of `claim_C7` at a
concrete record list with a URL at index 0. -/
theorem claim_C7_witness :
    (get_property_details (fun _ => none) [c7Basic1] 1).1.head? =
      some (Ev.fetch "http://h/u1") := by
  have h := claim_C7.2.2 (fun _ => none) [c7Basic1] 1 c7Basic1 rfl (by decide) (by decide)
  exact h

/-- A detail document whose base state matches nothing. -/
def emptyDetailDoc : DetailDoc :=
  { idSel1 := none, idSel2 := none, idSel3 := none,
    dateSel1 := none, dateSel2 := none, dateSel3 := none,
    floorSel1 := none, floorSel2 := none, floorSel3 := none, floorSel4 := none,
    floorSel5 := none,
    propertyFacts := none, basicInfoList := none, characteristics := none, detailList := none,
    descSel1 := none, descSel2 := none, descSel3 := none, descSel4 := none,
    amenitiesSec := none, featuresListSec := none, propertyFeaturesSec := none,
    contactSel1 := none, contactSel2 := none, contactSel3 := none,
    rawHtml := "" }

/-- A detail page whose first id selector matches an element with
whitespace-only text. -/
def c8Doc : DetailDoc := { emptyDetailDoc with idSel1 := some "  " }

/-- A basic record whose URL has final path segment `abc`. -/
def c8Basic : BasicInfo :=
  { title := "t", price := "p", address := "a", description := "", size := "",
    url := "https://h/x/abc" }

/-- Claim C8, counterexample: on `c8Doc` the id selector matches an
element whose stripped text is empty, and the code overrides the
URL-derived id with that empty string — the claim's "non-empty text
override" condition is false on the code. -/
theorem claim_C8_counterexample :
    (extract_detail_data c8Doc c8Basic).propertyId = "" ∧
    (afterLastSlash c8Basic.url.toList).map String.mk = some "abc" ∧
    ("" : String) ≠ "abc" := by
  refine ⟨by decide, by decide, by decide⟩

/-- A basic record whose URL ends in a slash: the id regex has no match. -/
def c8BasicSlash : BasicInfo :=
  { title := "t", price := "p", address := "a", description := "", size := "",
    url := "https://h/x/" }

/-- Claim C8 (amended): in the detail parser the property id equals the
stripped text of the first matching id selector whenever one matches —
even when that text strips to empty — and otherwise the URL's final path
segment, with the "unknown" sentinel `"不明"` when the URL has no segment
(in particular the `/([^/]+)$` regex fails on a URL ending in `'/'`, so
such URLs keep the sentinel in both the detail parser and the
carry-forward records). -/
theorem claim_C8 :
    (∀ (soup : DetailDoc) (basic : BasicInfo),
      (extract_detail_data soup basic).propertyId = resolvedPropertyId soup basic) ∧
    (∀ basic : BasicInfo, (initPropertyData basic).propertyId =
      (match afterLastSlash basic.url.toList with
       | some seg => String.mk seg
       | none => "不明")) ∧
    afterLastSlash "https://h/x/".toList = none ∧
    (extract_detail_data emptyDetailDoc c8BasicSlash).propertyId = "不明" ∧
    (initPropertyData c8BasicSlash).propertyId = "不明" :=
  ⟨extract_detail_data_propertyId, fun _ => rfl, by decide, by decide, by decide⟩

/-- Claim C4: per-item failures are isolated and the status discipline of
the detail parser holds.  An item whose processing raises (caught by the
per-item handler) contributes nothing and does not disturb any other item
or field, stated both on the item loop and on whole documents differing
only by such an item; and since every modelled exception is caught before
the top level, the returned status is always `"詳細取得済"` (the top-level
`except` that would set `"エラー"` is never reached). -/
theorem claim_C4 :
    (∀ (soup : DetailDoc) (basic : BasicInfo),
      (extract_detail_data soup basic).status = "詳細取得済") ∧
    (∀ (α : Type) (getLV : α → Option (String × String)) (l₁ l₂ : List (Raisable α))
      (pd : PropertyDetail),
      processItems getLV (l₁ ++ Raisable.raised :: l₂) pd =
        processItems getLV (l₁ ++ l₂) pd) ∧
    (∀ (soup : DetailDoc) (basic : BasicInfo)
      (l₁ l₂ : List (Raisable (Option String × Option String))),
      extract_detail_data { soup with propertyFacts := some (l₁ ++ Raisable.raised :: l₂) } basic =
        extract_detail_data { soup with propertyFacts := some (l₁ ++ l₂) } basic) ∧
    (∀ (soup : DetailDoc) (basic : BasicInfo) (l₁ l₂ : List (Raisable String)),
      extract_detail_data { soup with characteristics := some (l₁ ++ Raisable.raised :: l₂) } basic =
        extract_detail_data { soup with characteristics := some (l₁ ++ l₂) } basic) := by
  refine ⟨extract_detail_data_status, fun α => processItems_raised, ?_, ?_⟩
  · intro soup basic l₁ l₂
    have key : ∀ pd,
        stepDetails { soup with propertyFacts := some (l₁ ++ Raisable.raised :: l₂) } pd =
          stepDetails { soup with propertyFacts := some (l₁ ++ l₂) } pd := by
      intro pd
      show processItems lvOfPair (l₁ ++ Raisable.raised :: l₂) pd =
        processItems lvOfPair (l₁ ++ l₂) pd
      exact processItems_raised lvOfPair l₁ l₂ pd
    show { stepContact { soup with propertyFacts := some (l₁ ++ Raisable.raised :: l₂) }
        (stepAmenities { soup with propertyFacts := some (l₁ ++ Raisable.raised :: l₂) }
          (resolveDescr { soup with propertyFacts := some (l₁ ++ Raisable.raised :: l₂) } basic)
          (stepDescr (resolveDescr { soup with propertyFacts := some (l₁ ++ Raisable.raised :: l₂) } basic)
            (stepDetails { soup with propertyFacts := some (l₁ ++ Raisable.raised :: l₂) }
              (stepFloor { soup with propertyFacts := some (l₁ ++ Raisable.raised :: l₂) }
                (stepDate { soup with propertyFacts := some (l₁ ++ Raisable.raised :: l₂) }
                  (stepId { soup with propertyFacts := some (l₁ ++ Raisable.raised :: l₂) } basic
                    (initDetailRecord basic))))))) with status := "詳細取得済" } = _
    rw [key]
    rfl
  · intro soup basic l₁ l₂
    have key : ∀ pd,
        stepDetails { soup with characteristics := some (l₁ ++ Raisable.raised :: l₂) } pd =
          stepDetails { soup with characteristics := some (l₁ ++ l₂) } pd := by
      intro pd
      show (match soup.propertyFacts with
            | some items => processItems lvOfPair items pd
            | none =>
              match soup.basicInfoList with
              | some items => processItems lvOfPair items pd
              | none => processItems lvOfText (l₁ ++ Raisable.raised :: l₂) pd)
          = (match soup.propertyFacts with
            | some items => processItems lvOfPair items pd
            | none =>
              match soup.basicInfoList with
              | some items => processItems lvOfPair items pd
              | none => processItems lvOfText (l₁ ++ l₂) pd)
      cases soup.propertyFacts with
      | some items => rfl
      | none =>
        cases soup.basicInfoList with
        | some items => rfl
        | none => exact processItems_raised lvOfText l₁ l₂ pd
    show { stepContact { soup with characteristics := some (l₁ ++ Raisable.raised :: l₂) }
        (stepAmenities { soup with characteristics := some (l₁ ++ Raisable.raised :: l₂) }
          (resolveDescr { soup with characteristics := some (l₁ ++ Raisable.raised :: l₂) } basic)
          (stepDescr (resolveDescr { soup with characteristics := some (l₁ ++ Raisable.raised :: l₂) } basic)
            (stepDetails { soup with characteristics := some (l₁ ++ Raisable.raised :: l₂) }
              (stepFloor { soup with characteristics := some (l₁ ++ Raisable.raised :: l₂) }
                (stepDate { soup with characteristics := some (l₁ ++ Raisable.raised :: l₂) }
                  (stepId { soup with characteristics := some (l₁ ++ Raisable.raised :: l₂) } basic
                    (initDetailRecord basic))))))) with status := "詳細取得済" } = _
    rw [key]
    rfl

theorem resolveRecord_status (fetch : String → Option DetailDoc) (b : BasicInfo) :
    (resolveRecord fetch b).status = "基本情報のみ" ∨
      (resolveRecord fetch b).status = "詳細取得済" := by
  unfold resolveRecord
  split_ifs
  · left; rfl
  · cases hf : fetch b.url with
    | none => left; rfl
    | some soup => right; exact extract_detail_data_status soup b

theorem resolveRecord_fetchFail (fetch : String → Option DetailDoc) (b : BasicInfo)
    (h : fetch b.url = none) : resolveRecord fetch b = initPropertyData b := by
  unfold resolveRecord
  split_ifs
  · rfl
  · rw [h]

/-- Claim C10: the detail phase is length- and order-preserving — its
output has exactly the length of its input, and the record at index `i`
is derived from the basic record at index `i` (the detail-parsed
replacement within `detail_limit` when the fetch succeeds, the
carried-forward record otherwise); no record is dropped, duplicated or
reordered. -/
theorem claim_C10 :
    (∀ (fetch : String → Option DetailDoc) (l : List BasicInfo) (md : Int),
      (get_property_details fetch l md).2.length = l.length) ∧
    (∀ (fetch : String → Option DetailDoc) (l : List BasicInfo) (md : Int) (i : Nat),
      (get_property_details fetch l md).2.get? i =
        (l.get? i).map (fun b =>
          if i < detailLimit l md then resolveRecord fetch b else initPropertyData b)) :=
  ⟨details_length, details_get?⟩

/-- Claim C2: `detail_limit` is `min(max_details, |records|)` for positive
`max_details` and 0 otherwise; every output status is one of 基本情報のみ /
詳細取得済 / エラー; every record at an index at or beyond `detail_limit`
is 基本情報のみ; `max_details = 0` produces the pure carry-forward list
with an empty trace (zero fetches and zero waits); and a record within
`detail_limit` whose fetch fails keeps its carried-forward 基本情報のみ
state. -/
theorem claim_C2 :
    (∀ (l : List BasicInfo) (md : Int), 0 < md → detailLimit l md = min md.toNat l.length) ∧
    (∀ (l : List BasicInfo) (md : Int), md ≤ 0 → detailLimit l md = 0) ∧
    (∀ (fetch : String → Option DetailDoc) (l : List BasicInfo) (md : Int),
      ((get_property_details fetch l md).2.all (fun r =>
        r.status == "基本情報のみ" || r.status == "詳細取得済" || r.status == "エラー")) = true) ∧
    (∀ (fetch : String → Option DetailDoc) (l : List BasicInfo) (md : Int),
      (((get_property_details fetch l md).2.drop (detailLimit l md)).all (fun r =>
        r.status == "基本情報のみ")) = true) ∧
    (∀ (fetch : String → Option DetailDoc) (l : List BasicInfo),
      get_property_details fetch l 0 = ([], l.map initPropertyData)) ∧
    (∀ (fetch : String → Option DetailDoc) (l : List BasicInfo) (md : Int) (i : Nat)
      (b : BasicInfo), i < detailLimit l md → l.get? i = some b → fetch b.url = none →
      (get_property_details fetch l md).2.get? i = some (initPropertyData b)) := by
  refine ⟨?_, ?_, ?_, ?_, ?_, ?_⟩
  · intro l md hmd
    unfold detailLimit
    rw [if_pos hmd]
  · intro l md hmd
    unfold detailLimit
    rw [if_neg (by omega)]
  · intro fetch l md
    refine List.all_eq_true.mpr ?_
    intro r hr
    obtain ⟨i, hi⟩ := List.mem_iff_get?.mp hr
    rw [details_get?] at hi
    cases hb : l.get? i with
    | none => rw [hb] at hi; cases hi
    | some b =>
      rw [hb] at hi
      have hr' : r = if i < detailLimit l md then resolveRecord fetch b
          else initPropertyData b := (Option.some.inj hi).symm
      subst hr'
      by_cases hlt : i < detailLimit l md
      · rw [if_pos hlt]
        rcases resolveRecord_status fetch b with h | h <;> simp [h]
      · rw [if_neg hlt]
        simp [initPropertyData_status]
  · intro fetch l md
    refine List.all_eq_true.mpr ?_
    intro r hr
    obtain ⟨j, hj⟩ := List.mem_iff_get?.mp hr
    rw [List.get?_drop] at hj
    rw [details_get?] at hj
    cases hb : l.get? (detailLimit l md + j) with
    | none => rw [hb] at hj; cases hj
    | some b =>
      rw [hb] at hj
      have hnlt : ¬ detailLimit l md + j < detailLimit l md := by omega
      have hr' : r = if detailLimit l md + j < detailLimit l md then resolveRecord fetch b
          else initPropertyData b := (Option.some.inj hj).symm
      rw [if_neg hnlt] at hr'
      subst hr'
      simp [initPropertyData_status]
  · intro fetch l
    rfl
  · intro fetch l md i b hlt hb hf
    rw [details_get?, hb]
    show some (if i < detailLimit l md then resolveRecord fetch b else initPropertyData b) = _
    rw [if_pos hlt, resolveRecord_fetchFail fetch b hf]

/-- A basic record used to witness claim C2. -/
def c2Basic : BasicInfo :=
  { title := "t", price := "p", address := "a", description := "", size := "",
    url := "http://h/u9" }

/-- Claim C2, witness: `claim_C2` applied at a concrete failing fetch,
record list `[c2Basic]` and `max_details = 1`, discharging each
hypothesis. -/
theorem claim_C2_witness :
    detailLimit [c2Basic] 1 = min (Int.toNat 1) 1 ∧
    detailLimit [c2Basic] 0 = 0 ∧
    (get_property_details (fun _ => none) [c2Basic] 1).2.get? 0 =
      some (initPropertyData c2Basic) :=
  ⟨claim_C2.1 [c2Basic] 1 (by decide),
   claim_C2.2.1 [c2Basic] 0 (by decide),
   claim_C2.2.2.2.2.2 (fun _ => none) [c2Basic] 1 0 c2Basic (by decide) rfl rfl⟩

theorem enumFrom_get? {α : Type} : ∀ (l : List α) (k i : Nat),
    (List.enumFrom k l).get? i = (l.get? i).map (fun a => (k + i, a)) := by
  intro l
  induction l with
  | nil => intro k i; rfl
  | cons x xs ih =>
    intro k i
    cases i with
    | zero => simp [List.enumFrom]
    | succ i' =>
      show (List.enumFrom (k + 1) xs).get? i' = (xs.get? i').map (fun a => (k + (i' + 1), a))
      rw [ih (k + 1) i']
      cases h : xs.get? i' with
      | none => simp [h]
      | some a =>
        simp only [h, Option.map_some']
        have heq : k + 1 + i' = k + (i' + 1) := by omega
        rw [heq]

theorem enumFrom_length {α : Type} : ∀ (l : List α) (k : Nat),
    (List.enumFrom k l).length = l.length := by
  intro l
  induction l with
  | nil => intro k; rfl
  | cons x xs ih => intro k; show (List.enumFrom (k + 1) xs).length + 1 = _; rw [ih]; rfl

theorem format_get? (records : List SrcRecord) (i : Nat) :
    (format_for_spreadsheet records).get? i =
      (records.get? i).map (fun rec =>
        some (toString (i + 1)) ::
          requiredColumns.map (fun c =>
            if c = "WiFi" || c = "サウナ" then some (markCell (srcCell (dfColumns records) rec c))
            else srcCell (dfColumns records) rec c)) := by
  unfold format_for_spreadsheet
  rw [List.get?_map]
  show ((List.enumFrom 0 records).get? i).map _ = _
  rw [enumFrom_get? records 0 i]
  cases h : records.get? i with
  | none => rfl
  | some rec => simp [Nat.zero_add]

/-- Record set in which record 0 has a `Line` key and record 1 does not:
the `Line` column exists in the frame, so the formatter's column fill does
not apply, and record 1's `Line` cell is NaN (`none`), not `""`. -/
def c6Records : List SrcRecord :=
  [[("物件名", "A"), ("Line", "x")], [("物件名", "B")]]

/-- Claim C6, counterexample: on `c6Records` the second emitted row holds
`none` (pandas NaN) in the `Line` column — a key missing from one record
but present in another is not filled with the empty string, refuting the
claim for heterogeneous record sets. -/
theorem claim_C6_counterexample :
    format_for_spreadsheet c6Records =
      [[some "1", some "A", some "", some "", some "", some "", some "", some "",
        some "", some "", some "", some "", some "x", some ""],
       [some "2", some "B", some "", some "", some "", some "", some "", some "",
        some "", some "", some "", some "", none, some ""]] ∧
    ((format_for_spreadsheet c6Records).getD 1 []).getD 12 (some "sentinel") = none ∧
    (none : Option String) ≠ some "" := by
  refine ⟨by decide, by decide, by decide⟩

/-- Claim C6 (amended): the formatter always emits one row per record
under the fixed 14-column schema with a prepended 1-based sequence
number; a required column absent from every record is filled with the
empty string; the two amenity flags are rendered as a mark that is
`"◯"` exactly when the source value is `"あり"` (and empty otherwise,
including on NaN); but a key present in some records and absent in others
yields NaN (`none`) cells for the records lacking it, not the empty
string. -/
theorem claim_C6 :
    (∀ records : List SrcRecord,
      (format_for_spreadsheet records).length = records.length) ∧
    (∀ (records : List SrcRecord) (i : Nat) (row : List (Option String)),
      (format_for_spreadsheet records).get? i = some row →
        row.length = 14 ∧ row.head? = some (some (toString (i + 1)))) ∧
    (∀ (records : List SrcRecord) (i : Nat) (rec : SrcRecord),
      records.get? i = some rec →
      (format_for_spreadsheet records).get? i =
        some (some (toString (i + 1)) ::
          requiredColumns.map (fun c =>
            if c = "WiFi" || c = "サウナ" then some (markCell (srcCell (dfColumns records) rec c))
            else srcCell (dfColumns records) rec c))) ∧
    (∀ v : Option String,
      (markCell v = "◯" ∨ markCell v = "") ∧ (markCell v = "◯" ↔ v = some "あり")) ∧
    (∀ (records : List SrcRecord) (rec : SrcRecord) (c : String),
      (dfColumns records).contains c = false →
      srcCell (dfColumns records) rec c = some "") := by
  refine ⟨?_, ?_, ?_, ?_, ?_⟩
  · intro records
    unfold format_for_spreadsheet
    rw [List.length_map]
    exact enumFrom_length records 0
  · intro records i row hrow
    rw [format_get?] at hrow
    cases h : records.get? i with
    | none => rw [h] at hrow; cases hrow
    | some rec =>
      rw [h] at hrow
      have hr : row = some (toString (i + 1)) ::
          requiredColumns.map (fun c =>
            if c = "WiFi" || c = "サウナ" then some (markCell (srcCell (dfColumns records) rec c))
            else srcCell (dfColumns records) rec c) := (Option.some.inj hrow).symm
      subst hr
      constructor
      · rw [List.length_cons, List.length_map]
        rfl
      · rfl
  · intro records i rec hrec
    rw [format_get?, hrec]
    rfl
  · intro v
    constructor
    · unfold markCell
      split_ifs <;> simp
    · unfold markCell
      split_ifs with h
      · simp [h]
      · simp [h]
  · intro records rec c h
    unfold srcCell
    have hnc : ¬ ((dfColumns records).contains c = true) := by rw [h]; simp
    rw [if_neg hnc]

/-- Claim C6, witness: `claim_C6` applied at the concrete record set
`c6Records`, discharging each hypothesis. -/
theorem claim_C6_witness :
    (((format_for_spreadsheet c6Records).getD 0 []).length = 14 ∧
      ((format_for_spreadsheet c6Records).getD 0 []).head? = some (some "1")) ∧
    srcCell (dfColumns c6Records) [("物件名", "B")] "住所" = some "" := by
  constructor
  · have h := (claim_C6.2.1 c6Records 0 ((format_for_spreadsheet c6Records).getD 0 [])
      (by decide))
    exact ⟨h.1, h.2⟩
  · exact claim_C6.2.2.2.2 c6Records [("物件名", "B")] "住所" (by decide)
